import Mathlib

/-!
# Crop operator (`paddle/operators/crop_op.h`)

A shallow embedding of the forward crop kernel and of its gradient kernel,
followed by the properties proved about them.

Conventions of the embedding.

* A `Tensor` is a shape (`dims`) together with its row-major contiguous
  storage (`data`).  A tensor that holds no memory yet has `data = []`.
* Extents (`int64_t`) and container sizes (`size_t`) are modelled by exact
  integers.  The two amounts of a descriptor slot are of the 32-bit type `int`:
  what the loops compute is narrowed to `int` (`narrowInt`) when it is stored
  into `std::pair<int, int>`.  The narrowing keeps the value modulo `2^32`, so
  it gives the same slot whether the amount before it is taken exactly or
  modulo `2^64` in `int64_t`, and an entry of `offsets` outside the range of
  `int` acts as the `int` it is congruent to.
* A C++ function of type `void` becomes a function to `Outcome`: it either
  returns with the new state of the context, throws `EnforceNotMet` with the
  state reached so far, or runs into an access outside a container.
* `LOG(ERROR) << msg` appends `msg` to the field `log` of the context.
-/

namespace paddle.operators

/-! ## Data model -/

/-- Number of elements of a shape (`framework::product`). -/
def numel : List Nat → Nat
  | [] => 1
  | d :: ds => d * numel ds

/-- A dense tensor: its shape and its row-major storage. -/
structure Tensor (α : Type) where
  dims : List Nat
  data : List α

/-- Whether a multi-index lies inside a shape (same rank, every coordinate below its extent). -/
def inRange : List Nat → List Nat → Bool
  | [], [] => true
  | d :: ds, i :: is => decide (i < d) && inRange ds is
  | _, _ => false

/-- Row-major position of a multi-index inside a shape. -/
def ravel : List Nat → List Nat → Nat
  | _ :: ds, i :: is => i * numel ds + ravel ds is
  | _, _ => 0

/-- Multi-index of a row-major position inside a shape. -/
def unravel : List Nat → Nat → List Nat
  | [], _ => []
  | _ :: ds, k => (k / numel ds) :: unravel ds (k % numel ds)

/-- Element of a tensor at a multi-index; `none` outside the shape or outside the storage. -/
def Tensor.elemAt {α : Type} (t : Tensor α) (idx : List Nat) : Option α :=
  if inRange t.dims idx then t.data[ravel t.dims idx]? else none

/-- A tensor holds memory for its whole shape. -/
def Tensor.Allocated {α : Type} (t : Tensor α) : Prop := numel t.dims ≤ t.data.length

instance {α : Type} (t : Tensor α) : Decidable t.Allocated := by
  unfold Tensor.Allocated; infer_instance

/-- Modelled from the spec: `Tensor::mutable_data` (paddle/framework/tensor.h) is the
collaborator "allocate output storage of given shape".  Storage that is already
large enough is kept as it is; otherwise fresh storage of `numel dims`
elements is obtained, whose contents are whatever the allocator hands out
(`fresh`).
-/
def Tensor.mutable_data {α : Type} (t : Tensor α) (fresh : Nat → α) : Tensor α :=
  if numel t.dims ≤ t.data.length then t
  else { t with data := (List.range (numel t.dims)).map fresh }

/-- The execution context of one operator invocation: the variables the two
kernels look up by name, the attribute `offsets`, the contents of memory newly
handed out by the allocator, and the process log.
-/
structure ExecutionContext (α : Type) where
  /-- Input "X" of the forward operator. -/
  X : Tensor α
  /-- Output "Out" of the forward operator. -/
  Out : Tensor α
  /-- Input `GradVarName("Out")` of the gradient operator. -/
  OutGrad : Tensor α
  /-- Output `GradVarName("X")` of the gradient operator. -/
  XGrad : Tensor α
  /-- Attribute "offsets" (`std::vector<int>`). -/
  offsets : List Int
  /-- Contents of freshly allocated storage. -/
  fresh : Nat → α
  /-- Messages written with `LOG(ERROR)`. -/
  log : List String

/-- How a call of a `void` function ends. -/
inductive Outcome (α : Type) where
  /-- Normal return, with the state of the context on exit. -/
  | returned (context : ExecutionContext α)
  /-- An `EnforceNotMet` exception with its message, and the state reached when it was thrown. -/
  | threw (msg : String) (context : ExecutionContext α)
  /-- An access outside the bounds of a container. -/
  | outOfBounds

/-! ## The Eigen collaborators -/

/-- A rank-`D` view (`EigenTensor<T, D>::Type`) of a tensor: `D` extents and the storage. -/
structure EigenTensor (α : Type) where
  dimensions : List Nat
  data : List α

def rankMismatchMsg : String := "D must match DDim::size"

def noMemoryMsg : String := "Tensor holds no memory. Call Tensor::mutable_data first."

/-- Modelled from the spec: `EigenTensor<T, D>::From` (paddle/framework/eigen.h) views
"a dense N-dimensional array" of "equal rank" `D` through its contiguous storage.
The view of rank `D` exists only for a tensor with `D` axes that holds memory for
its shape; otherwise the conversion is refused with an enforce failure.
-/
def EigenTensor.From {α : Type} (D : Nat) (t : Tensor α) : Except String (EigenTensor α) :=
  if t.dims.length ≠ D then .error rankMismatchMsg
  else if t.data.length < numel t.dims then .error noMemoryMsg
  else .ok { dimensions := t.dims, data := t.data }

/-- The expression `input.pad(paddings, value)`. -/
structure TensorPaddingOp (α : Type) where
  impl : EigenTensor α
  padding : List (Int × Int)
  paddingValue : α

/-- Extents of a padded shape: `dims[i] + low[i] + high[i]` on every axis. -/
def paddedDims : List Nat → List (Int × Int) → List Nat
  | d :: ds, p :: ps => ((d : Int) + p.1 + p.2).toNat :: paddedDims ds ps
  | _, _ => []

/-- Modelled from the spec: the elementwise "pad" primitive (Eigen, not part of the
repository).  Along each axis a non-negative amount inserts `low` elements of
the pad value before and `high` after the existing data, a negative amount drops
that many leading/trailing rows: the output coordinate `idx` shows the input
coordinate `idx - low` when that lies in `[0, dim)`, and the pad value
otherwise.  The row-major position is decomposed axis by axis, outermost first;
the result is `none` when the input position lies outside the input storage.
-/
def padCoeff {α : Type} (data : List α) (value : α) :
    List Nat → List (Int × Int) → Nat → Nat → Option α
  | d :: ds, p :: ps, index, inputIndex =>
      let outputStride := numel (paddedDims ds ps)
      let inputStride := numel ds
      let idx := index / outputStride
      if (idx : Int) < p.1 ∨ (d : Int) + p.1 ≤ (idx : Int) then some value
      else padCoeff data value ds ps (index - idx * outputStride)
            (inputIndex + ((idx : Int) - p.1).toNat * inputStride)
  | _, _, _, inputIndex => data[inputIndex]?

def TensorPaddingOp.dimensions {α : Type} (e : TensorPaddingOp α) : List Nat :=
  paddedDims e.impl.dimensions e.padding

def TensorPaddingOp.coeff {α : Type} (e : TensorPaddingOp α) (index : Nat) : Option α :=
  padCoeff e.impl.data e.paddingValue e.impl.dimensions e.padding index 0

def EigenTensor.pad {α : Type} (t : EigenTensor α) (paddings : List (Int × Int)) (value : α) :
    TensorPaddingOp α :=
  { impl := t, padding := paddings, paddingValue := value }

/-- All values of a list of optional values, if none is missing. -/
def gather {α : Type} : List (Option α) → Option (List α)
  | [] => some []
  | none :: _ => none
  | some a :: rest => (gather rest).map (fun l => a :: l)

/-- Modelled from the spec: the device-mapped assignment `out.device(place) = expr`
writes "directly into the pre-allocated output tensor", one coefficient of the
expression per row-major position of the expression's shape.  The new storage of
the output is returned; `none` when a position written or read lies outside
the storage.
-/
def EigenTensor.assign {α : Type} (out : EigenTensor α) (e : TensorPaddingOp α) :
    Option (List α) :=
  let size := numel e.dimensions
  if out.data.length < size then none
  else (gather ((List.range size).map e.coeff)).map (fun written => written ++ out.data.drop size)

/-! ## The machine type `int` -/

/-- Whether an integer is a value of the 32-bit type `int`. -/
def fitsInt (v : Int) : Bool := decide (-2147483648 ≤ v) && decide (v ≤ 2147483647)

/-- Narrowing of an integer to the 32-bit type `int`: the value modulo `2^32` in the range
`[-2^31, 2^31)`. -/
def narrowInt (v : Int) : Int := (v + 2147483648) % 4294967296 - 2147483648

/-- Whether every amount of a list of exact `(low, high)` pairs is a value of `int`. -/
def descriptorFits : List (Int × Int) → Bool
  | [] => true
  | p :: ps => fitsInt p.1 && fitsInt p.2 && descriptorFits ps

/-! ## Descriptor construction -/

/-- A counted loop `for (i = 0; i < n; ++i) body(i)` over a state, stopping at the first failure. -/
def forLoop {σ : Type} (body : Nat → σ → Option σ) : Nat → σ → Option σ
  | 0, s => some s
  | n + 1, s => (forLoop body n s).bind (body n)

/-- The statement `paddings[i] = v` on a fixed-size array; `none` outside the array. -/
def storeSlot (paddings : List (Int × Int)) (i : Nat) (v : Int × Int) : Option (List (Int × Int)) :=
  if i < paddings.length then some (paddings.set i v) else none

/-- The declaration `Eigen::array<std::pair<int, int>, D> paddings`: `D` value-initialised pairs. -/
def newPaddings (D : Nat) : List (Int × Int) := List.replicate D (0, 0)

/-- Body of the loop of `CropFunction` (lines 44-45): the two amounts are stored into the
`int` members `first` and `second` of the slot. -/
def cropBody (offsets : List Int) (x_dims out_dims : List Nat) (i : Nat)
    (paddings : List (Int × Int)) : Option (List (Int × Int)) :=
  match offsets[i]?, x_dims[i]?, out_dims[i]? with
  | some o, some xd, some od =>
      storeSlot paddings i (narrowInt (-o), narrowInt (-((xd : Int) - (od : Int) - o)))
  | _, _, _ => none

/-- Lines 42-46 of `CropFunction`: the descriptor of the forward crop. -/
def cropPaddings (D : Nat) (offsets : List Int) (x_dims out_dims : List Nat) :
    Option (List (Int × Int)) :=
  forLoop (cropBody offsets x_dims out_dims) D (newPaddings D)

/-- Body of the loop of `CropGradFunction` (lines 96-97): the two amounts are stored into the
`int` members `first` and `second` of the slot. -/
def cropGradBody (offsets : List Int) (d_x_dims d_out_dims : List Nat) (i : Nat)
    (paddings : List (Int × Int)) : Option (List (Int × Int)) :=
  match offsets[i]?, d_x_dims[i]?, d_out_dims[i]? with
  | some o, some xd, some od =>
      storeSlot paddings i (narrowInt o, narrowInt ((xd : Int) - (od : Int) - o))
  | _, _, _ => none

/-- Lines 94-98 of `CropGradFunction`: the descriptor of the backward scatter. -/
def cropGradPaddings (D : Nat) (offsets : List Int) (d_x_dims d_out_dims : List Nat) :
    Option (List (Int × Int)) :=
  forLoop (cropGradBody offsets d_x_dims d_out_dims) d_out_dims.length (newPaddings D)

/-! ## The backward loop with a record of its stores -/

/-- Which access of the descriptor loop left its container. -/
inductive LoopFault where
  /-- A read of `offsets[i]`, `d_x_dims[i]` or `d_out_dims[i]` outside the container. -/
  | read (i : Nat)
  /-- The store `paddings[i] = ...` outside the array. -/
  | store (i : Nat)

/-- A counted loop over a state that stops at the first fault and reports it. -/
def forLoopE {σ ε : Type} (body : Nat → σ → Except ε σ) : Nat → σ → Except ε σ
  | 0, s => .ok s
  | n + 1, s =>
      match forLoopE body n s with
      | .ok s1 => body n s1
      | .error e => .error e

/-- Body of the loop of `CropGradFunction` (lines 96-97) on the array together with the list
of the slot indices stored to so far, in order. -/
def cropGradBodyTraced (offsets : List Int) (d_x_dims d_out_dims : List Nat) (i : Nat)
    (st : List (Int × Int) × List Nat) : Except LoopFault (List (Int × Int) × List Nat) :=
  match offsets[i]?, d_x_dims[i]?, d_out_dims[i]? with
  | some o, some xd, some od =>
      if i < st.1.length then
        .ok (st.1.set i (narrowInt o, narrowInt ((xd : Int) - (od : Int) - o)), st.2 ++ [i])
      else .error (.store i)
  | _, _, _ => .error (.read i)

/-- Lines 94-98 of `CropGradFunction` with the record of the stores. -/
def cropGradPaddingsTraced (D : Nat) (offsets : List Int) (d_x_dims d_out_dims : List Nat) :
    Except LoopFault (List (Int × Int) × List Nat) :=
  forLoopE (cropGradBodyTraced offsets d_x_dims d_out_dims) d_out_dims.length (newPaddings D, [])

/-! ## The kernels -/

def offsetsSizeMsg : String :=
  "Offsets size should be equal to dimension size of input tensor."

def rankMsg : String := "Only ranks up to 6 supported."

/-- `CropFunction<Place, T, D>` (lines 29-52). -/
def CropFunction {α : Type} [Zero α] (D : Nat) (context : ExecutionContext α) : Outcome α :=
  let x := context.X
  let out := context.Out.mutable_data context.fresh
  let context := { context with Out := out }
  let x_dims := x.dims
  let out_dims := out.dims
  let offsets := context.offsets
  if x_dims.length ≠ offsets.length then .threw offsetsSizeMsg context
  else
    match cropPaddings D offsets x_dims out_dims with
    | none => .outOfBounds
    | some paddings =>
      match EigenTensor.From D x with
      | .error msg => .threw msg context
      | .ok x_tensor =>
        match EigenTensor.From D out with
        | .error msg => .threw msg context
        | .ok out_tensor =>
          match out_tensor.assign (x_tensor.pad paddings 0) with
          | none => .outOfBounds
          | some written => .returned { context with Out := { out with data := written } }

/-- `CropKernel::Compute` (lines 57-81). -/
def CropKernel.Compute {α : Type} [Zero α] (context : ExecutionContext α) : Outcome α :=
  let dim := context.X.dims.length
  match dim with
  | 1 => CropFunction 1 context
  | 2 => CropFunction 2 context
  | 3 => CropFunction 3 context
  | 4 => CropFunction 4 context
  | 5 => CropFunction 5 context
  | 6 => CropFunction 6 context
  | _ => .returned { context with log := context.log ++ [rankMsg] }

/-- `CropGradFunction<Place, T, D>` (lines 84-104). -/
def CropGradFunction {α : Type} [Zero α] (D : Nat) (context : ExecutionContext α) : Outcome α :=
  let d_out := context.OutGrad
  let d_x := context.XGrad.mutable_data context.fresh
  let context := { context with XGrad := d_x }
  let d_x_dims := d_x.dims
  let d_out_dims := d_out.dims
  let offsets := context.offsets
  match cropGradPaddings D offsets d_x_dims d_out_dims with
  | none => .outOfBounds
  | some paddings =>
    match EigenTensor.From D d_x with
    | .error msg => .threw msg context
    | .ok d_x_tensor =>
      match EigenTensor.From D d_out with
      | .error msg => .threw msg context
      | .ok d_out_tensor =>
        match d_x_tensor.assign (d_out_tensor.pad paddings 0) with
        | none => .outOfBounds
        | some written => .returned { context with XGrad := { d_x with data := written } }

/-- `CropGradKernel::Compute` (lines 109-134). -/
def CropGradKernel.Compute {α : Type} [Zero α] (context : ExecutionContext α) : Outcome α :=
  let dim := context.OutGrad.dims.length
  match dim with
  | 1 => CropGradFunction 1 context
  | 2 => CropGradFunction 2 context
  | 3 => CropGradFunction 3 context
  | 4 => CropGradFunction 4 context
  | 5 => CropGradFunction 5 context
  | 6 => CropGradFunction 6 context
  | _ => .returned { context with log := context.log ++ [rankMsg] }

/-- Storage of "Out" after a call, when the call returned. -/
def Outcome.out? {α : Type} : Outcome α → Option (Tensor α)
  | .returned c => some c.Out
  | _ => none

/-- Storage of the gradient of "X" after a call, when the call returned. -/
def Outcome.xGrad? {α : Type} : Outcome α → Option (Tensor α)
  | .returned c => some c.XGrad
  | _ => none

/-! ## The worked example of the specification -/

/-- `X` of shape `[4,4]` holding `0..15`, offsets `[1,1]`, `Out` of shape `[2,2]` not yet
allocated; for the gradient operator `d_out = [[1,1],[1,1]]` and `d_x` of shape `[4,4]`. -/
def exampleCtx : ExecutionContext Int :=
  { X := ⟨[4, 4], [0, 1, 2, 3, 4, 5, 6, 7, 8, 9, 10, 11, 12, 13, 14, 15]⟩
    Out := ⟨[2, 2], []⟩
    OutGrad := ⟨[2, 2], [1, 1, 1, 1]⟩
    XGrad := ⟨[4, 4], []⟩
    offsets := [1, 1]
    fresh := fun _ => 7
    log := [] }

/-- The identity crop of the `[4,4]` example tensor. -/
def identityCtx : ExecutionContext Int :=
  { exampleCtx with Out := ⟨[4, 4], []⟩, offsets := [0, 0] }

/-- A call on operands of rank 7, one element each. -/
def rank7Ctx : ExecutionContext Int :=
  { X := ⟨[1, 1, 1, 1, 1, 1, 1], [3]⟩
    Out := ⟨[1, 1, 1, 1, 1, 1, 1], [8]⟩
    OutGrad := ⟨[1, 1, 1, 1, 1, 1, 1], [1]⟩
    XGrad := ⟨[1, 1, 1, 1, 1, 1, 1], [9]⟩
    offsets := [0, 0, 0, 0, 0, 0, 0]
    fresh := fun _ => 7
    log := [] }

/-- A forward call whose offsets are one entry short of the rank of `X`. -/
def shortOffsetsCtx : ExecutionContext Int :=
  { exampleCtx with offsets := [1], Out := ⟨[2, 2], [8, 8, 8, 8]⟩ }

/-- A call on operands of rank 0 whose outputs hold no memory yet. -/
def rank0Ctx : ExecutionContext Int :=
  { X := ⟨[], [3]⟩
    Out := ⟨[], []⟩
    OutGrad := ⟨[], [1]⟩
    XGrad := ⟨[], []⟩
    offsets := []
    fresh := fun _ => 7
    log := [] }

/-- A call on operands of rank 1: `X = [0,1,2,3]`, offset `1`, window of 2 elements. -/
def rank1Ctx : ExecutionContext Int :=
  { X := ⟨[4], [0, 1, 2, 3]⟩
    Out := ⟨[2], []⟩
    OutGrad := ⟨[2], [5, 6]⟩
    XGrad := ⟨[4], []⟩
    offsets := [1]
    fresh := fun _ => 7
    log := [] }

/-- The rank-1 call seen as a call on operands of rank 6 (five leading axes of extent 1). -/
def rank6Ctx : ExecutionContext Int :=
  { X := ⟨[1, 1, 1, 1, 1, 4], [0, 1, 2, 3]⟩
    Out := ⟨[1, 1, 1, 1, 1, 2], []⟩
    OutGrad := ⟨[1, 1, 1, 1, 1, 2], [5, 6]⟩
    XGrad := ⟨[1, 1, 1, 1, 1, 4], []⟩
    offsets := [0, 0, 0, 0, 0, 1]
    fresh := fun _ => 7
    log := [] }

/-- The worked example with a third entry appended to the offsets. -/
def longOffsetsCtx : ExecutionContext Int :=
  { exampleCtx with offsets := [1, 1, 5] }

/-- The same outcome with every context it carries transformed. -/
def Outcome.mapContext {α : Type} (f : ExecutionContext α → ExecutionContext α) :
    Outcome α → Outcome α
  | .returned c => .returned (f c)
  | .threw msg c => .threw msg (f c)
  | .outOfBounds => .outOfBounds

/-- A forward call that crops an input of 2147483650 elements (all `0`) to its first
element. -/
def hugeCropCtx : ExecutionContext Int :=
  { X := ⟨[2147483650], List.replicate 2147483650 0⟩
    Out := ⟨[1], [0]⟩
    OutGrad := ⟨[1], [1]⟩
    XGrad := ⟨[2147483650], []⟩
    offsets := [0]
    fresh := fun _ => 7
    log := [] }

/-- A backward call that scatters a gradient of one element into a `d_x` of 4294967298
elements, whose storage holds `9` everywhere before the call. -/
def hugeGradCtx : ExecutionContext Int :=
  { X := ⟨[4294967298], []⟩
    Out := ⟨[1], [0]⟩
    OutGrad := ⟨[1], [1]⟩
    XGrad := ⟨[4294967298], List.replicate 4294967298 9⟩
    offsets := [0]
    fresh := fun _ => 7
    log := [] }

/-! ## Closed forms of the two descriptors -/

/-- The exact amounts of the forward descriptor, axis by axis, before they are narrowed to
`int`: `(-o, -(x - s - o))`. -/
def cropDesc : List Int → List Nat → List Nat → List (Int × Int)
  | o :: os, x :: xs, s :: ss => (-o, -((x : Int) - (s : Int) - o)) :: cropDesc os xs ss
  | _, _, _ => []

/-- The exact amounts of the backward descriptor, axis by axis, before they are narrowed to
`int`: `(o, x - s - o)`. -/
def cropGradDesc : List Int → List Nat → List Nat → List (Int × Int)
  | o :: os, x :: xs, s :: ss => (o, (x : Int) - (s : Int) - o) :: cropGradDesc os xs ss
  | _, _, _ => []

/-- Entry `i` of the forward descriptor as stored, read off the three containers. -/
def cropEntry (offsets : List Int) (x_dims out_dims : List Nat) (i : Nat) : Int × Int :=
  (narrowInt (-(offsets.getD i 0)),
    narrowInt (-((x_dims.getD i 0 : Int) - (out_dims.getD i 0 : Int) - offsets.getD i 0)))

/-- Entry `i` of the backward descriptor as stored, read off the three containers. -/
def cropGradEntry (offsets : List Int) (d_x_dims d_out_dims : List Nat) (i : Nat) : Int × Int :=
  (narrowInt (offsets.getD i 0),
    narrowInt ((d_x_dims.getD i 0 : Int) - (d_out_dims.getD i 0 : Int) - offsets.getD i 0))

/-! ## Index vocabulary of the statements -/

/-- The multi-index `idx + O`. -/
def shift (idx : List Nat) (O : List Int) : List Nat :=
  List.zipWith (fun (i : Nat) (o : Int) => ((i : Int) + o).toNat) idx O

/-- The multi-index `idx - O`. -/
def unshift (idx : List Nat) (O : List Int) : List Nat :=
  List.zipWith (fun (i : Nat) (o : Int) => ((i : Int) - o).toNat) idx O

/-- Whether `O[i] <= idx[i] < O[i] + S[i]` on every axis (all three of the same rank). -/
def inWindow : List Int → List Nat → List Nat → Bool
  | [], [], [] => true
  | o :: os, s :: ss, i :: is =>
      decide (o ≤ (i : Int)) && decide ((i : Int) < o + (s : Int)) && inWindow os ss is
  | _, _, _ => false

/-- Whether `O[i] >= 0` and `O[i] + S[i] <= F[i]` on every axis (all three of the same rank). -/
def windowFits : List Int → List Nat → List Nat → Bool
  | [], [], [] => true
  | o :: os, s :: ss, f :: fs =>
      decide (0 ≤ o) && decide (o + (s : Int) ≤ (f : Int)) && windowFits os ss fs
  | _, _, _ => false

/-- All multi-indices of a shape, in row-major order. -/
def indices : List Nat → List (List Nat)
  | [] => [[]]
  | d :: ds => (List.range d).flatMap (fun i => (indices ds).map (fun is => i :: is))

/-- Value of a tensor at a multi-index, `0` where `elemAt` has none. -/
def Tensor.get {α : Type} [Zero α] (t : Tensor α) (idx : List Nat) : α :=
  (t.elemAt idx).getD 0

/-- Sum of `X[idx] * Y[idx]` over all multi-indices of a shape. -/
def tensorDot {α : Type} [Zero α] [Add α] [Mul α] (dims : List Nat) (a b : Tensor α) : α :=
  ((indices dims).map (fun idx => a.get idx * b.get idx)).sum


/-! ## Row-major positions -/

theorem numel_pos_of_inRange : ∀ (dims idx : List Nat), inRange dims idx = true → 0 < numel dims
  | [], [], _ => by simp [numel]
  | [], _ :: _, h => by simp [inRange] at h
  | _ :: _, [], h => by simp [inRange] at h
  | d :: ds, i :: is, h => by
      simp only [inRange, Bool.and_eq_true, decide_eq_true_eq] at h
      have := numel_pos_of_inRange ds is h.2
      simp only [numel]
      exact Nat.mul_pos (by omega) this

theorem ravel_lt : ∀ (dims idx : List Nat), inRange dims idx = true → ravel dims idx < numel dims
  | [], [], _ => by simp [ravel, numel]
  | [], _ :: _, h => by simp [inRange] at h
  | _ :: _, [], h => by simp [inRange] at h
  | d :: ds, i :: is, h => by
      simp only [inRange, Bool.and_eq_true, decide_eq_true_eq] at h
      have h1 := ravel_lt ds is h.2
      simp only [ravel, numel]
      calc i * numel ds + ravel ds is < i * numel ds + numel ds := by omega
        _ = (i + 1) * numel ds := by ring
        _ ≤ d * numel ds := Nat.mul_le_mul_right _ (by omega)

theorem unravel_ravel : ∀ (dims idx : List Nat), inRange dims idx = true →
    unravel dims (ravel dims idx) = idx
  | [], [], _ => by simp [unravel]
  | [], _ :: _, h => by simp [inRange] at h
  | _ :: _, [], h => by simp [inRange] at h
  | d :: ds, i :: is, h => by
      simp only [inRange, Bool.and_eq_true, decide_eq_true_eq] at h
      have h1 := ravel_lt ds is h.2
      have h2 := unravel_ravel ds is h.2
      have hpos : 0 < numel ds := numel_pos_of_inRange ds is h.2
      simp only [ravel, unravel]
      have e1 : (i * numel ds + ravel ds is) / numel ds = i := by
        rw [Nat.add_comm, Nat.add_mul_div_right _ _ hpos, Nat.div_eq_of_lt h1, Nat.zero_add]
      have e2 : (i * numel ds + ravel ds is) % numel ds = ravel ds is := by
        rw [Nat.add_comm, Nat.add_mul_mod_self_right, Nat.mod_eq_of_lt h1]
      rw [e1, e2, h2]

theorem inRange_unravel : ∀ (dims : List Nat) (k : Nat), k < numel dims →
    inRange dims (unravel dims k) = true
  | [], _, _ => by simp [unravel, inRange]
  | d :: ds, k, h => by
      simp only [numel] at h
      have hpos : 0 < numel ds := by
        rcases Nat.eq_zero_or_pos (numel ds) with h0 | h0
        · rw [h0] at h; simp at h
        · exact h0
      simp only [unravel, inRange, Bool.and_eq_true, decide_eq_true_eq]
      refine ⟨?_, inRange_unravel ds _ (Nat.mod_lt _ hpos)⟩
      rw [Nat.div_lt_iff_lt_mul hpos]; exact h

theorem ravel_unravel : ∀ (dims : List Nat) (k : Nat), k < numel dims →
    ravel dims (unravel dims k) = k
  | [], k, h => by simp [numel] at h; simp [ravel, unravel, h]
  | d :: ds, k, h => by
      simp only [numel] at h
      have hpos : 0 < numel ds := by
        rcases Nat.eq_zero_or_pos (numel ds) with h0 | h0
        · rw [h0] at h; simp at h
        · exact h0
      simp only [unravel, ravel]
      rw [ravel_unravel ds _ (Nat.mod_lt _ hpos)]
      exact Nat.div_add_mod' k (numel ds)

/-! ## The descriptor loops -/

theorem set_prefix_replicate (A : List (Int × Int)) (m : Nat) (z v : Int × Int) :
    (A ++ List.replicate (m + 1) z).set A.length v = (A ++ [v]) ++ List.replicate m z := by
  induction A with
  | nil => simp [List.replicate_succ]
  | cons a A ih => simpa using ih

theorem forLoop_store (D : Nat) (f : Nat → Int × Int)
    (body : Nat → List (Int × Int) → Option (List (Int × Int))) :
    ∀ n, n ≤ D → (∀ i, i < n → ∀ p, body i p = storeSlot p i (f i)) →
      forLoop body n (newPaddings D) =
        some ((List.range n).map f ++ List.replicate (D - n) (0, 0))
  | 0, _, _ => by simp [forLoop, newPaddings]
  | n + 1, hn, hb => by
      have ih := forLoop_store D f body n (by omega) (fun i hi p => hb i (by omega) p)
      simp only [forLoop, ih, Option.some_bind]
      rw [hb n (by omega)]
      have hlen : ((List.range n).map f).length = n := by simp
      have hD : D - n = (D - (n + 1)) + 1 := by omega
      unfold storeSlot
      rw [if_pos (by simp; omega)]
      rw [hD]
      have := set_prefix_replicate ((List.range n).map f) (D - (n + 1)) (0, 0) (f n)
      rw [hlen] at this
      rw [this, List.range_succ, List.map_append]
      simp

theorem cropBody_eq (offsets : List Int) (x_dims out_dims : List Nat) (i : Nat)
    (ho : i < offsets.length) (hx : i < x_dims.length) (hs : i < out_dims.length)
    (p : List (Int × Int)) :
    cropBody offsets x_dims out_dims i p = storeSlot p i (cropEntry offsets x_dims out_dims i) := by
  simp [cropBody, cropEntry, List.getElem?_eq_getElem, ho, hx, hs, List.getD_eq_getElem]

theorem cropGradBody_eq (offsets : List Int) (d_x_dims d_out_dims : List Nat) (i : Nat)
    (ho : i < offsets.length) (hx : i < d_x_dims.length) (hs : i < d_out_dims.length)
    (p : List (Int × Int)) :
    cropGradBody offsets d_x_dims d_out_dims i p =
      storeSlot p i (cropGradEntry offsets d_x_dims d_out_dims i) := by
  simp [cropGradBody, cropGradEntry, List.getElem?_eq_getElem, ho, hx, hs, List.getD_eq_getElem]

theorem cropPaddings_range (D : Nat) (offsets : List Int) (x_dims out_dims : List Nat)
    (ho : D ≤ offsets.length) (hx : D ≤ x_dims.length) (hs : D ≤ out_dims.length) :
    cropPaddings D offsets x_dims out_dims =
      some ((List.range D).map (cropEntry offsets x_dims out_dims)) := by
  unfold cropPaddings
  rw [forLoop_store D (cropEntry offsets x_dims out_dims) _ D (Nat.le_refl D)
    (fun i hi p => cropBody_eq offsets x_dims out_dims i (by omega) (by omega) (by omega) p)]
  simp

theorem cropGradPaddings_range (D : Nat) (offsets : List Int) (d_x_dims d_out_dims : List Nat)
    (hD : d_out_dims.length ≤ D) (ho : d_out_dims.length ≤ offsets.length)
    (hx : d_out_dims.length ≤ d_x_dims.length) :
    cropGradPaddings D offsets d_x_dims d_out_dims =
      some ((List.range d_out_dims.length).map (cropGradEntry offsets d_x_dims d_out_dims)
        ++ List.replicate (D - d_out_dims.length) (0, 0)) := by
  unfold cropGradPaddings
  exact forLoop_store D (cropGradEntry offsets d_x_dims d_out_dims) _ d_out_dims.length hD
    (fun i hi p => cropGradBody_eq offsets d_x_dims d_out_dims i (by omega) (by omega) hi p)

theorem narrowInt_of_fits (v : Int) (h : fitsInt v = true) : narrowInt v = v := by
  simp only [fitsInt, Bool.and_eq_true, decide_eq_true_eq] at h
  unfold narrowInt
  omega

theorem fitsInt_narrowInt (v : Int) : fitsInt (narrowInt v) = true := by
  simp only [fitsInt, Bool.and_eq_true, decide_eq_true_eq]
  unfold narrowInt
  omega

theorem range_map_cropEntry : ∀ (offsets : List Int) (x_dims out_dims : List Nat),
    x_dims.length = offsets.length → out_dims.length = offsets.length →
    descriptorFits (cropDesc offsets x_dims out_dims) = true →
    (List.range offsets.length).map (cropEntry offsets x_dims out_dims) =
      cropDesc offsets x_dims out_dims
  | [], [], [], _, _, _ => by simp [cropDesc]
  | o :: os, x :: xs, s :: ss, hx, hs, hf => by
      simp only [cropDesc, descriptorFits, Bool.and_eq_true] at hf
      have ih := range_map_cropEntry os xs ss (by simpa using hx) (by simpa using hs) hf.2
      have h0 : cropEntry (o :: os) (x :: xs) (s :: ss) 0 = (-o, -((x : Int) - (s : Int) - o)) := by
        simp only [cropEntry, List.getD_cons_zero]
        rw [narrowInt_of_fits _ hf.1.1, narrowInt_of_fits _ hf.1.2]
      have hsucc : ∀ i, cropEntry (o :: os) (x :: xs) (s :: ss) (i + 1) = cropEntry os xs ss i := by
        intro i; simp only [cropEntry, List.getD_cons_succ]
      simp only [List.length_cons, List.range_succ_eq_map, List.map_cons, List.map_map, cropDesc]
      rw [← ih, h0]
      simp only [Function.comp_def, hsucc, Nat.succ_eq_add_one]
  | [], _ :: _, _, hx, _, _ => by simp at hx
  | [], [], _ :: _, _, hs, _ => by simp at hs
  | _ :: _, [], _, hx, _, _ => by simp at hx
  | _ :: _, _ :: _, [], _, hs, _ => by simp at hs

theorem range_map_cropGradEntry : ∀ (offsets : List Int) (d_x_dims d_out_dims : List Nat),
    d_x_dims.length = offsets.length → d_out_dims.length = offsets.length →
    descriptorFits (cropGradDesc offsets d_x_dims d_out_dims) = true →
    (List.range offsets.length).map (cropGradEntry offsets d_x_dims d_out_dims) =
      cropGradDesc offsets d_x_dims d_out_dims
  | [], [], [], _, _, _ => by simp [cropGradDesc]
  | o :: os, x :: xs, s :: ss, hx, hs, hf => by
      simp only [cropGradDesc, descriptorFits, Bool.and_eq_true] at hf
      have ih := range_map_cropGradEntry os xs ss (by simpa using hx) (by simpa using hs) hf.2
      have h0 : cropGradEntry (o :: os) (x :: xs) (s :: ss) 0 =
          (o, (x : Int) - (s : Int) - o) := by
        simp only [cropGradEntry, List.getD_cons_zero]
        rw [narrowInt_of_fits _ hf.1.1, narrowInt_of_fits _ hf.1.2]
      have hsucc : ∀ i, cropGradEntry (o :: os) (x :: xs) (s :: ss) (i + 1) =
          cropGradEntry os xs ss i := by
        intro i; simp only [cropGradEntry, List.getD_cons_succ]
      simp only [List.length_cons, List.range_succ_eq_map, List.map_cons, List.map_map,
        cropGradDesc]
      rw [← ih, h0]
      simp only [Function.comp_def, hsucc, Nat.succ_eq_add_one]
  | [], _ :: _, _, hx, _, _ => by simp at hx
  | [], [], _ :: _, _, hs, _ => by simp at hs
  | _ :: _, [], _, hx, _, _ => by simp at hx
  | _ :: _, _ :: _, [], _, hs, _ => by simp at hs

theorem cropPaddings_eq (D : Nat) (offsets : List Int) (x_dims out_dims : List Nat)
    (ho : offsets.length = D) (hx : x_dims.length = D) (hs : out_dims.length = D)
    (hf : descriptorFits (cropDesc offsets x_dims out_dims) = true) :
    cropPaddings D offsets x_dims out_dims = some (cropDesc offsets x_dims out_dims) := by
  rw [cropPaddings_range D offsets x_dims out_dims (by omega) (by omega) (by omega), ← ho,
    range_map_cropEntry offsets x_dims out_dims (by omega) (by omega) hf]

theorem cropGradPaddings_eq (D : Nat) (offsets : List Int) (d_x_dims d_out_dims : List Nat)
    (ho : offsets.length = D) (hx : d_x_dims.length = D) (hs : d_out_dims.length = D)
    (hf : descriptorFits (cropGradDesc offsets d_x_dims d_out_dims) = true) :
    cropGradPaddings D offsets d_x_dims d_out_dims =
      some (cropGradDesc offsets d_x_dims d_out_dims) := by
  rw [cropGradPaddings_range D offsets d_x_dims d_out_dims (by omega) (by omega) (by omega), hs,
    ← ho, range_map_cropGradEntry offsets d_x_dims d_out_dims (by omega) (by omega) hf]
  simp

/-! ## The pad primitive under the two descriptors -/

theorem windowFits_length : ∀ (O : List Int) (S F : List Nat), windowFits O S F = true →
    S.length = O.length ∧ F.length = O.length
  | [], [], [], _ => by simp
  | o :: os, s :: ss, f :: fs, h => by
      simp only [windowFits, Bool.and_eq_true] at h
      have := windowFits_length os ss fs h.2
      simp [this.1, this.2]
  | [], _ :: _, _, h => by simp [windowFits] at h
  | [], [], _ :: _, h => by simp [windowFits] at h
  | _ :: _, [], _, h => by simp [windowFits] at h
  | _ :: _, _ :: _, [], h => by simp [windowFits] at h

theorem paddedDims_cropDesc : ∀ (O : List Int) (X S : List Nat),
    X.length = O.length → S.length = O.length → paddedDims X (cropDesc O X S) = S
  | [], [], [], _, _ => by simp [cropDesc, paddedDims]
  | o :: os, x :: xs, s :: ss, hx, hs => by
      have ih := paddedDims_cropDesc os xs ss (by simpa using hx) (by simpa using hs)
      simp only [cropDesc, paddedDims, ih, List.cons.injEq, and_true]
      omega
  | [], _ :: _, _, hx, _ => by simp at hx
  | [], [], _ :: _, _, hs => by simp at hs
  | _ :: _, [], _, hx, _ => by simp at hx
  | _ :: _, _ :: _, [], _, hs => by simp at hs

theorem paddedDims_cropGradDesc : ∀ (O : List Int) (F S : List Nat),
    F.length = O.length → S.length = O.length → paddedDims S (cropGradDesc O F S) = F
  | [], [], [], _, _ => by simp [cropGradDesc, paddedDims]
  | o :: os, x :: xs, s :: ss, hx, hs => by
      have ih := paddedDims_cropGradDesc os xs ss (by simpa using hx) (by simpa using hs)
      simp only [cropGradDesc, paddedDims, ih, List.cons.injEq, and_true]
      omega
  | [], _ :: _, _, hx, _ => by simp at hx
  | [], [], _ :: _, _, hs => by simp at hs
  | _ :: _, [], _, hx, _ => by simp at hx
  | _ :: _, _ :: _, [], _, hs => by simp at hs

theorem ravel_cons_div (ds is : List Nat) (i : Nat) (h : inRange ds is = true) :
    (i * numel ds + ravel ds is) / numel ds = i := by
  have h1 := ravel_lt ds is h
  have hpos : 0 < numel ds := numel_pos_of_inRange ds is h
  rw [Nat.add_comm, Nat.add_mul_div_right _ _ hpos, Nat.div_eq_of_lt h1, Nat.zero_add]

theorem inRange_shift : ∀ (O : List Int) (S X idx : List Nat), windowFits O S X = true →
    inRange S idx = true → inRange X (shift idx O) = true
  | [], [], [], [], _, _ => by simp [shift, inRange]
  | o :: os, s :: ss, x :: xs, i :: is, hf, hr => by
      simp only [windowFits, Bool.and_eq_true, decide_eq_true_eq] at hf
      simp only [inRange, Bool.and_eq_true, decide_eq_true_eq] at hr
      have ih := inRange_shift os ss xs is hf.2 hr.2
      simp only [shift, List.zipWith_cons_cons, inRange, Bool.and_eq_true, decide_eq_true_eq]
      exact ⟨by omega, ih⟩
  | [], [], [], _ :: _, _, hr => by simp [inRange] at hr
  | _ :: _, _ :: _, _ :: _, [], _, hr => by simp [inRange] at hr
  | [], _ :: _, _, _, hf, _ => by simp [windowFits] at hf
  | [], [], _ :: _, _, hf, _ => by simp [windowFits] at hf
  | _ :: _, [], _, _, hf, _ => by simp [windowFits] at hf
  | _ :: _, _ :: _, [], _, hf, _ => by simp [windowFits] at hf

/-- Under the forward descriptor of a window that fits, the pad expression shows `X[idx + O]`. -/
theorem padCoeff_cropDesc {α : Type} (data : List α) (v : α) :
    ∀ (O : List Int) (S X idx : List Nat) (acc : Nat), windowFits O S X = true →
      inRange S idx = true →
      padCoeff data v X (cropDesc O X S) (ravel S idx) acc = data[acc + ravel X (shift idx O)]?
  | [], [], [], [], acc, _, _ => by simp [padCoeff, cropDesc, ravel, shift]
  | o :: os, s :: ss, x :: xs, i :: is, acc, hf, hr => by
      simp only [windowFits, Bool.and_eq_true, decide_eq_true_eq] at hf
      simp only [inRange, Bool.and_eq_true, decide_eq_true_eq] at hr
      have hlen := windowFits_length os ss xs hf.2
      have ih := padCoeff_cropDesc data v os ss xs is
        (acc + ((i : Int) - -o).toNat * numel xs) hf.2 hr.2
      simp only [cropDesc, padCoeff, ravel, paddedDims_cropDesc os xs ss hlen.2 hlen.1,
        ravel_cons_div ss is i hr.2, Nat.add_sub_cancel_left]
      rw [if_neg (by omega), ih]
      simp only [shift, List.zipWith_cons_cons, ravel]
      have e : ((i : Int) - -o).toNat = ((i : Int) + o).toNat := by congr 1; ring
      rw [e, Nat.add_assoc]
  | [], [], [], _ :: _, _, _, hr => by simp [inRange] at hr
  | _ :: _, _ :: _, _ :: _, [], _, _, hr => by simp [inRange] at hr
  | [], _ :: _, _, _, _, hf, _ => by simp [windowFits] at hf
  | [], [], _ :: _, _, _, hf, _ => by simp [windowFits] at hf
  | _ :: _, [], _, _, _, hf, _ => by simp [windowFits] at hf
  | _ :: _, _ :: _, [], _, _, hf, _ => by simp [windowFits] at hf

/-- Under the backward descriptor the pad expression shows `d_out[idx - O]` inside the
window and the pad value outside of it. -/
theorem padCoeff_cropGradDesc {α : Type} (data : List α) (v : α) :
    ∀ (O : List Int) (S F idx : List Nat) (acc : Nat), S.length = O.length →
      F.length = O.length → inRange F idx = true →
      padCoeff data v S (cropGradDesc O F S) (ravel F idx) acc =
        if inWindow O S idx then data[acc + ravel S (unshift idx O)]? else some v
  | [], [], [], [], acc, _, _, _ => by simp [padCoeff, cropGradDesc, ravel, unshift, inWindow]
  | o :: os, s :: ss, f :: fs, i :: is, acc, hs, hx, hr => by
      simp only [inRange, Bool.and_eq_true, decide_eq_true_eq] at hr
      have hs1 : ss.length = os.length := by simpa using hs
      have hx1 : fs.length = os.length := by simpa using hx
      have ih := padCoeff_cropGradDesc data v os ss fs is
        (acc + ((i : Int) - o).toNat * numel ss) hs1 hx1 hr.2
      simp only [cropGradDesc, padCoeff, ravel, paddedDims_cropGradDesc os fs ss hx1 hs1,
        ravel_cons_div fs is i hr.2, Nat.add_sub_cancel_left, inWindow]
      by_cases hw : (i : Int) < o ∨ (s : Int) + o ≤ (i : Int)
      · rw [if_pos hw]
        have : (decide (o ≤ (i : Int)) && decide ((i : Int) < o + (s : Int))) = false := by
          simp only [Bool.and_eq_false_iff, decide_eq_false_iff_not]
          omega
        simp [this]
      · rw [if_neg hw, ih]
        have : (decide (o ≤ (i : Int)) && decide ((i : Int) < o + (s : Int))) = true := by
          simp only [Bool.and_eq_true, decide_eq_true_eq]
          omega
        simp only [this, Bool.true_and, unshift, List.zipWith_cons_cons, ravel, Nat.add_assoc]
  | [], [], [], _ :: _, _, _, _, hr => by simp [inRange] at hr
  | _ :: _, _ :: _, _ :: _, [], _, _, _, hr => by simp [inRange] at hr
  | [], _ :: _, _, _, _, hs, _, _ => by simp at hs
  | [], [], _ :: _, _, _, _, hx, _ => by simp at hx
  | _ :: _, [], _, _, _, hs, _, _ => by simp at hs
  | _ :: _, _ :: _, [], _, _, _, hx, _ => by simp at hx

/-! ## Allocation and assignment -/

theorem mutable_data_dims {α : Type} (t : Tensor α) (fresh : Nat → α) :
    (t.mutable_data fresh).dims = t.dims := by
  unfold Tensor.mutable_data; split <;> rfl

theorem mutable_data_allocated {α : Type} (t : Tensor α) (fresh : Nat → α) :
    numel t.dims ≤ (t.mutable_data fresh).data.length := by
  unfold Tensor.mutable_data; split
  · assumption
  · simp

theorem mutable_data_of_allocated {α : Type} (t : Tensor α) (fresh : Nat → α)
    (h : t.Allocated) : t.mutable_data fresh = t := by
  unfold Tensor.mutable_data; exact if_pos h

theorem gather_map_some {α : Type} : ∀ (l : List (Option α)), (∀ x ∈ l, x.isSome = true) →
    ∃ r, gather l = some r ∧ r.map some = l
  | [], _ => ⟨[], rfl, rfl⟩
  | none :: _, h => by simpa using h none (by simp)
  | some a :: rest, h => by
      obtain ⟨r, hr, hm⟩ := gather_map_some rest (fun x hx => h x (by simp [hx]))
      exact ⟨a :: r, by simp [gather, hr], by simp [hm]⟩

theorem gather_range {α : Type} (size : Nat) (f : Nat → Option α)
    (h : ∀ k, k < size → (f k).isSome = true) :
    ∃ r, gather ((List.range size).map f) = some r ∧ r.length = size ∧
      ∀ k, k < size → r[k]? = f k := by
  obtain ⟨r, hr, hm⟩ := gather_map_some ((List.range size).map f) (by
    intro x hx
    simp only [List.mem_map, List.mem_range] at hx
    obtain ⟨k, hk, rfl⟩ := hx
    exact h k hk)
  have hlen : r.length = size := by
    have := congrArg List.length hm
    simpa using this
  refine ⟨r, hr, hlen, fun k hk => ?_⟩
  have h1 := congrArg (fun l => l[k]?) hm
  simp only [List.getElem?_map, List.getElem?_range hk, Option.map_some'] at h1
  cases hrk : r[k]? with
  | none => rw [hrk] at h1; simp at h1
  | some a => rw [hrk] at h1; simpa using h1

theorem assign_spec {α : Type} (out : EigenTensor α) (e : TensorPaddingOp α)
    (hsize : numel e.dimensions ≤ out.data.length)
    (hsome : ∀ k, k < numel e.dimensions → (e.coeff k).isSome = true) :
    ∃ written, out.assign e = some written ∧ written.length = out.data.length ∧
      (∀ k, k < numel e.dimensions → written[k]? = e.coeff k) ∧
      written.drop (numel e.dimensions) = out.data.drop (numel e.dimensions) := by
  obtain ⟨r, hr, hlen, hget⟩ := gather_range (numel e.dimensions) e.coeff hsome
  refine ⟨r ++ out.data.drop (numel e.dimensions), ?_, ?_, ?_, ?_⟩
  · unfold EigenTensor.assign
    simp only [hr, Option.map_some']
    rw [if_neg (by omega)]
  · simp only [List.length_append, List.length_drop, hlen]; omega
  · intro k hk
    rw [List.getElem?_append_left (by omega)]
    exact hget k hk
  · rw [List.drop_append_of_le_length (by omega), ← hlen]
    simp

/-! ## The two rank-specialised functions -/

theorem inRange_unshift : ∀ (O : List Int) (S idx : List Nat), inWindow O S idx = true →
    inRange S (unshift idx O) = true
  | [], [], [], _ => by simp [unshift, inRange]
  | o :: os, s :: ss, i :: is, h => by
      simp only [inWindow, Bool.and_eq_true, decide_eq_true_eq] at h
      have ih := inRange_unshift os ss is h.2
      simp only [unshift, List.zipWith_cons_cons, inRange, Bool.and_eq_true, decide_eq_true_eq]
      exact ⟨by omega, ih⟩
  | [], _ :: _, _, h => by simp [inWindow] at h
  | [], [], _ :: _, h => by simp [inWindow] at h
  | _ :: _, [], _, h => by simp [inWindow] at h
  | _ :: _, _ :: _, [], h => by simp [inWindow] at h

theorem From_ok {α : Type} (D : Nat) (t : Tensor α) (hD : t.dims.length = D)
    (h : numel t.dims ≤ t.data.length) :
    EigenTensor.From D t = .ok { dimensions := t.dims, data := t.data } := by
  unfold EigenTensor.From
  rw [if_neg (by simp [hD]), if_neg (by omega)]

theorem From_mutable_data {α : Type} (D : Nat) (t : Tensor α) (fresh : Nat → α)
    (hD : t.dims.length = D) :
    EigenTensor.From D (t.mutable_data fresh) =
      .ok { dimensions := t.dims, data := (t.mutable_data fresh).data } := by
  have h := From_ok D (t.mutable_data fresh) (by rw [mutable_data_dims]; exact hD)
    (by rw [mutable_data_dims]; exact mutable_data_allocated t fresh)
  rw [h, mutable_data_dims]

/-- The forward function on a window that fits: it returns, and `Out` holds the window. -/
theorem CropFunction_spec {α : Type} [Zero α] (D : Nat) (c : ExecutionContext α)
    (hD : c.X.dims.length = D) (hX : c.X.Allocated)
    (hfit : windowFits c.offsets c.Out.dims c.X.dims = true)
    (hint : descriptorFits (cropDesc c.offsets c.X.dims c.Out.dims) = true) :
    ∃ written, CropFunction D c = .returned { c with Out := ⟨c.Out.dims, written⟩ } ∧
      written.length = (c.Out.mutable_data c.fresh).data.length ∧
      (∀ idx, inRange c.Out.dims idx = true →
        written[ravel c.Out.dims idx]? = c.X.data[ravel c.X.dims (shift idx c.offsets)]?) ∧
      written.drop (numel c.Out.dims) =
        (c.Out.mutable_data c.fresh).data.drop (numel c.Out.dims) := by
  have hlen := windowFits_length _ _ _ hfit
  have hpd : paddedDims c.X.dims (cropDesc c.offsets c.X.dims c.Out.dims) = c.Out.dims :=
    paddedDims_cropDesc _ _ _ hlen.2 hlen.1
  have hcoeff : ∀ idx, inRange c.Out.dims idx = true →
      padCoeff c.X.data (0 : α) c.X.dims (cropDesc c.offsets c.X.dims c.Out.dims)
        (ravel c.Out.dims idx) 0 = c.X.data[ravel c.X.dims (shift idx c.offsets)]? := by
    intro idx hidx
    rw [padCoeff_cropDesc c.X.data 0 _ _ _ idx 0 hfit hidx, Nat.zero_add]
  obtain ⟨written, hw, hwl, hwget, hwdrop⟩ := assign_spec
    ({ dimensions := c.Out.dims, data := (c.Out.mutable_data c.fresh).data } : EigenTensor α)
    (EigenTensor.pad { dimensions := c.X.dims, data := c.X.data }
      (cropDesc c.offsets c.X.dims c.Out.dims) (0 : α))
    (by
      simp only [TensorPaddingOp.dimensions, EigenTensor.pad, hpd]
      exact mutable_data_allocated _ _)
    (by
      intro k hk
      simp only [TensorPaddingOp.dimensions, EigenTensor.pad, hpd] at hk
      have hr := inRange_unravel _ _ hk
      have := hcoeff _ hr
      rw [ravel_unravel _ _ hk] at this
      simp only [TensorPaddingOp.coeff, EigenTensor.pad, this]
      have h2 := ravel_lt _ _ (inRange_shift _ _ _ _ hfit hr)
      have h3 : numel c.X.dims ≤ c.X.data.length := hX
      rw [List.getElem?_eq_getElem (by omega)]
      rfl)
  simp only [TensorPaddingOp.dimensions, EigenTensor.pad, hpd] at hwget hwdrop
  refine ⟨written, ?_, hwl, ?_, hwdrop⟩
  · unfold CropFunction
    simp only [mutable_data_dims]
    rw [if_neg (by simp [hlen.2]),
      cropPaddings_eq D _ _ _ (by omega) hD (by omega) hint]
    simp only [From_ok D c.X hD hX, From_mutable_data D c.Out c.fresh (by omega), hw]
  · intro idx hidx
    rw [hwget _ (ravel_lt _ _ hidx)]
    exact hcoeff idx hidx

/-- The backward function on operands of one rank: it returns, and the gradient of `X`
holds `d_out` inside the window and zero outside of it. -/
theorem CropGradFunction_spec {α : Type} [Zero α] (D : Nat) (c : ExecutionContext α)
    (hD : c.OutGrad.dims.length = D) (hG : c.OutGrad.Allocated)
    (ho : c.offsets.length = D) (hx : c.XGrad.dims.length = D)
    (hint : descriptorFits (cropGradDesc c.offsets c.XGrad.dims c.OutGrad.dims) = true) :
    ∃ written, CropGradFunction D c = .returned { c with XGrad := ⟨c.XGrad.dims, written⟩ } ∧
      written.length = (c.XGrad.mutable_data c.fresh).data.length ∧
      (∀ idx, inRange c.XGrad.dims idx = true →
        written[ravel c.XGrad.dims idx]? =
          if inWindow c.offsets c.OutGrad.dims idx
          then c.OutGrad.data[ravel c.OutGrad.dims (unshift idx c.offsets)]? else some 0) ∧
      written.drop (numel c.XGrad.dims) =
        (c.XGrad.mutable_data c.fresh).data.drop (numel c.XGrad.dims) := by
  have hpd : paddedDims c.OutGrad.dims (cropGradDesc c.offsets c.XGrad.dims c.OutGrad.dims)
      = c.XGrad.dims := paddedDims_cropGradDesc _ _ _ (by omega) (by omega)
  have hcoeff : ∀ idx, inRange c.XGrad.dims idx = true →
      padCoeff c.OutGrad.data (0 : α) c.OutGrad.dims
        (cropGradDesc c.offsets c.XGrad.dims c.OutGrad.dims) (ravel c.XGrad.dims idx) 0 =
        if inWindow c.offsets c.OutGrad.dims idx
        then c.OutGrad.data[ravel c.OutGrad.dims (unshift idx c.offsets)]? else some 0 := by
    intro idx hidx
    rw [padCoeff_cropGradDesc c.OutGrad.data 0 _ _ _ idx 0 (by omega) (by omega) hidx,
      Nat.zero_add]
  obtain ⟨written, hw, hwl, hwget, hwdrop⟩ := assign_spec
    ({ dimensions := c.XGrad.dims, data := (c.XGrad.mutable_data c.fresh).data } : EigenTensor α)
    (EigenTensor.pad { dimensions := c.OutGrad.dims, data := c.OutGrad.data }
      (cropGradDesc c.offsets c.XGrad.dims c.OutGrad.dims) (0 : α))
    (by
      simp only [TensorPaddingOp.dimensions, EigenTensor.pad, hpd]
      exact mutable_data_allocated _ _)
    (by
      intro k hk
      simp only [TensorPaddingOp.dimensions, EigenTensor.pad, hpd] at hk
      have hr := inRange_unravel _ _ hk
      have := hcoeff _ hr
      rw [ravel_unravel _ _ hk] at this
      simp only [TensorPaddingOp.coeff, EigenTensor.pad, this]
      split
      · rename_i hwin
        have h2 := ravel_lt _ _ (inRange_unshift _ _ _ hwin)
        have h3 : numel c.OutGrad.dims ≤ c.OutGrad.data.length := hG
        rw [List.getElem?_eq_getElem (by omega)]
        rfl
      · rfl)
  simp only [TensorPaddingOp.dimensions, EigenTensor.pad, hpd] at hwget hwdrop
  refine ⟨written, ?_, hwl, ?_, hwdrop⟩
  · unfold CropGradFunction
    simp only [mutable_data_dims]
    rw [cropGradPaddings_eq D _ _ _ ho hx hD hint]
    simp only [From_ok D c.OutGrad hD hG, From_mutable_data D c.XGrad c.fresh hx, hw]
  · intro idx hidx
    rw [hwget _ (ravel_lt _ _ hidx)]
    exact hcoeff idx hidx

/-! ## Rank dispatch -/

theorem CropKernel_dispatch {α : Type} [Zero α] (c : ExecutionContext α)
    (h1 : 1 ≤ c.X.dims.length) (h6 : c.X.dims.length ≤ 6) :
    CropKernel.Compute c = CropFunction c.X.dims.length c := by
  unfold CropKernel.Compute
  generalize c.X.dims.length = n at h1 h6
  interval_cases n <;> rfl

theorem CropGradKernel_dispatch {α : Type} [Zero α] (c : ExecutionContext α)
    (h1 : 1 ≤ c.OutGrad.dims.length) (h6 : c.OutGrad.dims.length ≤ 6) :
    CropGradKernel.Compute c = CropGradFunction c.OutGrad.dims.length c := by
  unfold CropGradKernel.Compute
  generalize c.OutGrad.dims.length = n at h1 h6
  interval_cases n <;> rfl

/-! ## Extents beyond the range of `int` -/

/-- A rank-1 crop at offset `0` to one element whose stored high amount makes the pad
expression larger than `Out` runs out of the storage of `Out`. -/
theorem CropKernel_oversize_outOfBounds (c : ExecutionContext Int) (N : Nat) (hi : Int)
    (hp : cropPaddings 1 [0] [N] [1] = some [(0, hi)])
    (hbig : 1 < numel (paddedDims [N] [(0, hi)]))
    (hXd : c.X.dims = [N]) (hXl : N ≤ c.X.data.length)
    (hOut : c.Out = ⟨[1], [0]⟩) (ho : c.offsets = [0]) :
    CropKernel.Compute c = .outOfBounds := by
  rw [CropKernel_dispatch c (by rw [hXd]; simp) (by rw [hXd]; simp)]
  unfold CropFunction
  have hm : c.Out.mutable_data c.fresh = ⟨[1], [0]⟩ := by
    rw [hOut]; rfl
  simp only [hm, hXd, ho, List.length_singleton, ne_eq, not_true_eq_false, if_false, hp]
  have hx : EigenTensor.From 1 c.X = .ok { dimensions := [N], data := c.X.data } := by
    have := From_ok 1 c.X (by rw [hXd]; rfl) (by rw [hXd]; simpa [numel] using hXl)
    rw [this, hXd]
  have hout : EigenTensor.From 1 (Tensor.mk [1] [(0 : Int)]) =
      .ok { dimensions := [1], data := [0] } := by rfl
  simp only [hx, hout]
  have ha : (EigenTensor.mk [1] [(0 : Int)]).assign
      ((EigenTensor.mk [N] c.X.data).pad [(0, hi)] 0) = none := by
    unfold EigenTensor.assign
    simp only [TensorPaddingOp.dimensions, EigenTensor.pad]
    rw [if_pos (by simpa using hbig)]
  simp only [ha]

/-- Scattering one element into a `d_x` of 4294967298 elements writes the first two
positions only. -/
theorem CropGradKernel_huge_returned (c : ExecutionContext Int)
    (hG : c.OutGrad = ⟨[1], [1]⟩) (ho : c.offsets = [0])
    (hXd : c.XGrad.dims = [4294967298]) (hXl : 4294967298 ≤ c.XGrad.data.length) :
    CropGradKernel.Compute c =
      .returned { c with XGrad := ⟨[4294967298], 1 :: 0 :: c.XGrad.data.drop 2⟩ } := by
  have hp : cropGradPaddings 1 [0] [4294967298] [1] = some [(0, 1)] := by decide
  rw [CropGradKernel_dispatch c (by rw [hG]; decide) (by rw [hG]; decide)]
  have hm : c.XGrad.mutable_data c.fresh = c.XGrad :=
    mutable_data_of_allocated _ _ (by
      show numel c.XGrad.dims ≤ c.XGrad.data.length
      rw [hXd]; simpa [numel] using hXl)
  have hx : EigenTensor.From 1 c.XGrad =
      .ok { dimensions := [4294967298], data := c.XGrad.data } := by
    have := From_ok 1 c.XGrad (by rw [hXd]; rfl) (by rw [hXd]; simpa [numel] using hXl)
    rw [this, hXd]
  have hout : EigenTensor.From 1 (Tensor.mk [1] [(1 : Int)]) =
      .ok { dimensions := [1], data := [1] } := by rfl
  have ha : (EigenTensor.mk [4294967298] c.XGrad.data).assign
      ((EigenTensor.mk [1] [(1 : Int)]).pad [(0, 1)] 0) =
      some (1 :: 0 :: c.XGrad.data.drop 2) := by
    unfold EigenTensor.assign
    simp only [TensorPaddingOp.dimensions, EigenTensor.pad]
    have hsz : numel (paddedDims [1] [((0 : Int), (1 : Int))]) = 2 := by decide
    rw [hsz, if_neg (by omega)]
    have hg : gather ((List.range 2).map
        (TensorPaddingOp.mk (EigenTensor.mk [1] [(1 : Int)]) [(0, 1)] 0).coeff) =
        some [1, 0] := by decide
    rw [hg]; rfl
  unfold CropGradFunction
  simp only [hm, hG, ho, hXd, List.length_singleton, hp, hx, hout, ha]

theorem hugeCropCtx_outOfBounds : CropKernel.Compute hugeCropCtx = .outOfBounds :=
  CropKernel_oversize_outOfBounds hugeCropCtx 2147483650 2147483647 (by decide) (by decide) rfl
    (by show 2147483650 ≤ (List.replicate 2147483650 (0 : Int)).length
        rw [List.length_replicate]) rfl rfl

theorem hugeCropCtx_allocated : hugeCropCtx.X.Allocated := by
  show numel [2147483650] ≤ (List.replicate 2147483650 (0 : Int)).length
  rw [List.length_replicate]; decide

theorem hugeGradCtx_returned (v : Int) :
    CropGradKernel.Compute
        { hugeGradCtx with XGrad := ⟨[4294967298], List.replicate 4294967298 v⟩ } =
      .returned { hugeGradCtx with
        XGrad := ⟨[4294967298], 1 :: 0 :: (List.replicate 4294967298 v).drop 2⟩ } :=
  CropGradKernel_huge_returned
    { hugeGradCtx with XGrad := ⟨[4294967298], List.replicate 4294967298 v⟩ } rfl rfl rfl
    (by show 4294967298 ≤ (List.replicate 4294967298 v).length
        rw [List.length_replicate])

theorem huge_dx_elemAt_two (v : Int) :
    (Tensor.mk [4294967298] (1 :: 0 :: (List.replicate 4294967298 v).drop 2)).elemAt [2] =
      some v := by
  have hr : inRange [4294967298] [2] = true := by decide
  have hk : ravel [4294967298] [2] = 2 := by decide
  simp only [Tensor.elemAt, hr, if_true, hk]
  rw [show (2 : Nat) = 0 + 1 + 1 from rfl, List.getElem?_cons_succ, List.getElem?_cons_succ,
    List.getElem?_drop, List.getElem?_replicate, if_pos (by decide)]

/-- For a window that fits in a tensor whose extents are values of `int` no amount of the
forward descriptor is narrowed. -/
theorem descriptorFits_cropDesc : ∀ (O : List Int) (S X : List Nat),
    windowFits O S X = true → (∀ x ∈ X, x ≤ 2147483647) →
    descriptorFits (cropDesc O X S) = true
  | [], [], [], _, _ => rfl
  | o :: os, s :: ss, x :: xs, hf, hx => by
      simp only [windowFits, Bool.and_eq_true, decide_eq_true_eq] at hf
      have hx0 := hx x (by simp)
      have ih := descriptorFits_cropDesc os ss xs hf.2 (fun y hy => hx y (by simp [hy]))
      simp only [cropDesc, descriptorFits, fitsInt, ih, Bool.and_eq_true, decide_eq_true_eq,
        and_true]
      omega
  | [], _ :: _, _, hf, _ => by simp [windowFits] at hf
  | [], [], _ :: _, hf, _ => by simp [windowFits] at hf
  | _ :: _, [], _, hf, _ => by simp [windowFits] at hf
  | _ :: _, _ :: _, [], hf, _ => by simp [windowFits] at hf

/-- For a window that fits in a tensor whose extents are values of `int` no amount of the
backward descriptor is narrowed. -/
theorem descriptorFits_cropGradDesc : ∀ (O : List Int) (S F : List Nat),
    windowFits O S F = true → (∀ x ∈ F, x ≤ 2147483647) →
    descriptorFits (cropGradDesc O F S) = true
  | [], [], [], _, _ => rfl
  | o :: os, s :: ss, x :: xs, hf, hx => by
      simp only [windowFits, Bool.and_eq_true, decide_eq_true_eq] at hf
      have hx0 := hx x (by simp)
      have ih := descriptorFits_cropGradDesc os ss xs hf.2 (fun y hy => hx y (by simp [hy]))
      simp only [cropGradDesc, descriptorFits, fitsInt, ih, Bool.and_eq_true,
        decide_eq_true_eq, and_true]
      omega
  | [], _ :: _, _, hf, _ => by simp [windowFits] at hf
  | [], [], _ :: _, hf, _ => by simp [windowFits] at hf
  | _ :: _, [], _, hf, _ => by simp [windowFits] at hf
  | _ :: _, _ :: _, [], hf, _ => by simp [windowFits] at hf

/-! ## Forward crop and backward scatter, element by element -/

/-- C1, as stated, fails: an input of rank 1 with 2147483650 elements that holds its data,
offset `0` and an output of one element satisfy every condition of the claim, the exact high
amount `-2147483649` is stored as the `int` `2147483647`, the pad expression then has
4294967297 elements, and the kernel runs out of the storage of `Out` instead of returning
the window. -/
theorem crop_forward_fails_beyond_int :
    (1 ≤ hugeCropCtx.X.dims.length ∧ hugeCropCtx.X.dims.length ≤ 6 ∧ hugeCropCtx.X.Allocated ∧
      windowFits hugeCropCtx.offsets hugeCropCtx.Out.dims hugeCropCtx.X.dims = true) ∧
    cropDesc hugeCropCtx.offsets hugeCropCtx.X.dims hugeCropCtx.Out.dims = [(0, -2147483649)] ∧
    cropPaddings 1 hugeCropCtx.offsets hugeCropCtx.X.dims hugeCropCtx.Out.dims =
      some [(0, 2147483647)] ∧
    CropKernel.Compute hugeCropCtx = .outOfBounds ∧
    ¬ ∃ out, CropKernel.Compute hugeCropCtx = .returned { hugeCropCtx with Out := out } :=
  ⟨⟨by decide, by decide, hugeCropCtx_allocated, by decide⟩, by decide, by decide,
    hugeCropCtx_outOfBounds,
    fun ⟨_, h⟩ => Outcome.noConfusion (hugeCropCtx_outOfBounds.symm.trans h)⟩

/-- C1, amended. Forward crop is a window copy: for an input `X` of rank 1..6 holding its
data, offsets `O` and an output shape `S` with `O[i] >= 0` and `O[i] + S[i] <= X.shape[i]` on
every axis, and every amount `-O[i]`, `-(X.shape[i] - S[i] - O[i])` of the descriptor a value
of the 32-bit type `int`, `CropKernel::Compute` returns, changes nothing but `Out`, keeps the
shape of `Out`, and `Out[idx] = X[idx + O]` for every index `idx` inside `S`. -/
theorem crop_forward_window_copy {α : Type} [Zero α] (c : ExecutionContext α)
    (hrank1 : 1 ≤ c.X.dims.length) (hrank6 : c.X.dims.length ≤ 6) (hX : c.X.Allocated)
    (hfit : windowFits c.offsets c.Out.dims c.X.dims = true)
    (hint : descriptorFits (cropDesc c.offsets c.X.dims c.Out.dims) = true) :
    ∃ out, CropKernel.Compute c = .returned { c with Out := out } ∧ out.dims = c.Out.dims ∧
      ∀ idx, inRange c.Out.dims idx = true →
        (out.elemAt idx).isSome = true ∧ out.elemAt idx = c.X.elemAt (shift idx c.offsets) := by
  obtain ⟨written, hret, _, hget, _⟩ := CropFunction_spec c.X.dims.length c rfl hX hfit hint
  refine ⟨⟨c.Out.dims, written⟩, ?_, rfl, ?_⟩
  · rw [CropKernel_dispatch c hrank1 hrank6, hret]
  · intro idx hidx
    have hsh := inRange_shift _ _ _ _ hfit hidx
    have hlt := ravel_lt _ _ hsh
    have hX' : numel c.X.dims ≤ c.X.data.length := hX
    have hval : written[ravel c.Out.dims idx]? = c.X.elemAt (shift idx c.offsets) := by
      rw [hget idx hidx]; simp only [Tensor.elemAt, hsh, if_true]
    simp only [Tensor.elemAt, hidx, if_true, hval, and_true]
    simp only [Tensor.elemAt, hsh, if_true]
    rw [List.getElem?_eq_getElem (by omega)]; rfl

/-- C1, amended, at the worked example: `X` of shape `[4,4]` holding `0..15`, `O = [1,1]`,
`S = [2,2]` gives `Out = [[5,6],[9,10]]`. -/
theorem crop_forward_window_copy_witness :
    (1 ≤ exampleCtx.X.dims.length ∧ exampleCtx.X.dims.length ≤ 6 ∧ exampleCtx.X.Allocated ∧
      windowFits exampleCtx.offsets exampleCtx.Out.dims exampleCtx.X.dims = true ∧
      descriptorFits (cropDesc exampleCtx.offsets exampleCtx.X.dims exampleCtx.Out.dims) = true) ∧
    (∃ out, CropKernel.Compute exampleCtx = .returned { exampleCtx with Out := out } ∧
      out.dims = exampleCtx.Out.dims ∧
      ∀ idx, inRange exampleCtx.Out.dims idx = true →
        (out.elemAt idx).isSome = true ∧
        out.elemAt idx = exampleCtx.X.elemAt (shift idx exampleCtx.offsets)) ∧
    (CropKernel.Compute exampleCtx).out? = some ⟨[2, 2], [5, 6, 9, 10]⟩ :=
  ⟨⟨by decide, by decide, by decide, by decide, by decide⟩,
    crop_forward_window_copy exampleCtx (by decide) (by decide) (by decide) (by decide)
      (by decide),
    by rfl⟩

/-- C2, as stated, fails: a gradient of one element, offset `0` and a `d_x` of rank 1 with
4294967298 elements satisfy every condition of the claim, the exact high amount `4294967297`
is stored as the `int` `1`, the pad expression then has two elements, and the kernel writes
positions 0 and 1 only: at index `2`, outside the window, `d_x` still holds the `9` it held
before the call, not `0`. -/
theorem crop_backward_fails_beyond_int :
    (1 ≤ hugeGradCtx.OutGrad.dims.length ∧ hugeGradCtx.OutGrad.dims.length ≤ 6 ∧
      hugeGradCtx.OutGrad.Allocated ∧
      windowFits hugeGradCtx.offsets hugeGradCtx.OutGrad.dims hugeGradCtx.XGrad.dims = true) ∧
    cropGradDesc hugeGradCtx.offsets hugeGradCtx.XGrad.dims hugeGradCtx.OutGrad.dims =
      [(0, 4294967297)] ∧
    cropGradPaddings 1 hugeGradCtx.offsets hugeGradCtx.XGrad.dims hugeGradCtx.OutGrad.dims =
      some [(0, 1)] ∧
    inRange hugeGradCtx.XGrad.dims [2] = true ∧
    inWindow hugeGradCtx.offsets hugeGradCtx.OutGrad.dims [2] = false ∧
    (∃ dx, CropGradKernel.Compute hugeGradCtx = .returned { hugeGradCtx with XGrad := dx } ∧
      dx.elemAt [2] = some 9) ∧
    ¬ ∃ dx, CropGradKernel.Compute hugeGradCtx = .returned { hugeGradCtx with XGrad := dx } ∧
      dx.elemAt [2] = some 0 := by
  refine ⟨⟨by decide, by decide, by decide, by decide⟩, by decide, by decide, by decide,
    by decide, ⟨_, hugeGradCtx_returned 9, huge_dx_elemAt_two 9⟩, ?_⟩
  rintro ⟨dx, hret, h0⟩
  have e := (hugeGradCtx_returned 9).symm.trans hret
  injection e with e
  have e2 := congrArg ExecutionContext.XGrad e
  simp only at e2
  rw [← e2, huge_dx_elemAt_two 9] at h0
  cases h0

/-- C2, amended. Backward scatter is zero-padding at the crop offsets: for a gradient `d_out`
of rank 1..6 holding its data, a target shape and offsets `O` with `O[i] >= 0` and
`O[i] + d_out_dims[i] <= d_x_dims[i]` on every axis, and every amount `O[i]`,
`d_x_dims[i] - d_out_dims[i] - O[i]` of the descriptor a value of the 32-bit type `int`,
`CropGradKernel::Compute` returns, changes nothing but `d_x`, keeps its shape, and
`d_x[idx] = d_out[idx - O]` for `idx` inside the window `[O, O + d_out_dims)` and
`d_x[idx] = 0` for every other index inside `d_x_dims`. -/
theorem crop_backward_zero_padding {α : Type} [Zero α] (c : ExecutionContext α)
    (hrank1 : 1 ≤ c.OutGrad.dims.length) (hrank6 : c.OutGrad.dims.length ≤ 6)
    (hG : c.OutGrad.Allocated)
    (hfit : windowFits c.offsets c.OutGrad.dims c.XGrad.dims = true)
    (hint : descriptorFits (cropGradDesc c.offsets c.XGrad.dims c.OutGrad.dims) = true) :
    ∃ dx, CropGradKernel.Compute c = .returned { c with XGrad := dx } ∧
      dx.dims = c.XGrad.dims ∧
      ∀ idx, inRange c.XGrad.dims idx = true →
        (inWindow c.offsets c.OutGrad.dims idx = true →
          (dx.elemAt idx).isSome = true ∧
          dx.elemAt idx = c.OutGrad.elemAt (unshift idx c.offsets)) ∧
        (inWindow c.offsets c.OutGrad.dims idx = false → dx.elemAt idx = some 0) := by
  have hlen := windowFits_length _ _ _ hfit
  obtain ⟨written, hret, _, hget, _⟩ :=
    CropGradFunction_spec c.OutGrad.dims.length c rfl hG (by omega) (by omega) hint
  refine ⟨⟨c.XGrad.dims, written⟩, ?_, rfl, ?_⟩
  · rw [CropGradKernel_dispatch c hrank1 hrank6, hret]
  · intro idx hidx
    have hval := hget idx hidx
    constructor
    · intro hwin
      have hsh := inRange_unshift _ _ _ hwin
      have hlt := ravel_lt _ _ hsh
      have hG' : numel c.OutGrad.dims ≤ c.OutGrad.data.length := hG
      rw [if_pos hwin] at hval
      simp only [Tensor.elemAt, hidx, hsh, if_true, hval, and_true]
      rw [List.getElem?_eq_getElem (by omega)]; rfl
    · intro hwin
      rw [if_neg (by simp [hwin])] at hval
      simp only [Tensor.elemAt, hidx, if_true, hval]

/-- C2, amended, at the worked example: `d_out = [[1,1],[1,1]]`, `O = [1,1]`, `d_x` of shape
`[4,4]` gives 1 at rows 1..2, columns 1..2 and 0 elsewhere. -/
theorem crop_backward_zero_padding_witness :
    (1 ≤ exampleCtx.OutGrad.dims.length ∧ exampleCtx.OutGrad.dims.length ≤ 6 ∧
      exampleCtx.OutGrad.Allocated ∧
      windowFits exampleCtx.offsets exampleCtx.OutGrad.dims exampleCtx.XGrad.dims = true ∧
      descriptorFits (cropGradDesc exampleCtx.offsets exampleCtx.XGrad.dims
        exampleCtx.OutGrad.dims) = true) ∧
    (∃ dx, CropGradKernel.Compute exampleCtx = .returned { exampleCtx with XGrad := dx } ∧
      dx.dims = exampleCtx.XGrad.dims ∧
      ∀ idx, inRange exampleCtx.XGrad.dims idx = true →
        (inWindow exampleCtx.offsets exampleCtx.OutGrad.dims idx = true →
          (dx.elemAt idx).isSome = true ∧
          dx.elemAt idx = exampleCtx.OutGrad.elemAt (unshift idx exampleCtx.offsets)) ∧
        (inWindow exampleCtx.offsets exampleCtx.OutGrad.dims idx = false →
          dx.elemAt idx = some 0)) ∧
    (CropGradKernel.Compute exampleCtx).xGrad? =
      some ⟨[4, 4], [0, 0, 0, 0, 0, 1, 1, 0, 0, 1, 1, 0, 0, 0, 0, 0]⟩ :=
  ⟨⟨by decide, by decide, by decide, by decide, by decide⟩,
    crop_backward_zero_padding exampleCtx (by decide) (by decide) (by decide) (by decide)
      (by decide),
    by rfl⟩

/-! ## Sums over the indices of a shape -/

theorem sum_map_flatMap {α β γ : Type} [AddMonoid α] (l : List β) (g : β → List γ)
    (φ : γ → α) :
    ((l.flatMap g).map φ).sum = (l.map (fun a => ((g a).map φ).sum)).sum := by
  induction l with
  | nil => simp
  | cons a l ih => simp [List.flatMap_cons, ih]

theorem list_sum_range {α : Type} [AddCommMonoid α] (f : Nat → α) (n : Nat) :
    ((List.range n).map f).sum = ∑ a in Finset.range n, f a := by
  simp [Finset.sum, Finset.range, Multiset.range]

theorem sum_range_window {α : Type} [AddCommMonoid α] (g : Nat → α) (n s f : Nat)
    (h : n + s ≤ f) :
    ((List.range f).map (fun a => if n ≤ a ∧ a < n + s then g a else 0)).sum =
      ((List.range s).map (fun b => g (b + n))).sum := by
  rw [list_sum_range, list_sum_range, ← Finset.sum_filter]
  have : (Finset.range f).filter (fun a => n ≤ a ∧ a < n + s) = Finset.Ico n (n + s) := by
    ext a; simp only [Finset.mem_filter, Finset.mem_range, Finset.mem_Ico]; omega
  rw [this, Finset.sum_Ico_eq_sum_range]
  simp [Nat.add_comm]

theorem sum_indices_cons {α : Type} [AddMonoid α] (d : Nat) (ds : List Nat)
    (φ : List Nat → α) :
    ((indices (d :: ds)).map φ).sum =
      ((List.range d).map (fun a => ((indices ds).map (fun is => φ (a :: is))).sum)).sum := by
  simp only [indices, sum_map_flatMap, List.map_map, Function.comp_def]

theorem mem_indices : ∀ (dims idx : List Nat), idx ∈ indices dims → inRange dims idx = true
  | [], idx, h => by
      simp only [indices, List.mem_singleton] at h
      subst h; rfl
  | d :: ds, idx, h => by
      simp only [indices, List.mem_flatMap, List.mem_range, List.mem_map] at h
      obtain ⟨a, ha, is, his, rfl⟩ := h
      simp only [inRange, Bool.and_eq_true, decide_eq_true_eq]
      exact ⟨ha, mem_indices ds is his⟩

/-- A sum over the full shape of a function that vanishes outside the window is the sum of
its values over the window. -/
theorem sum_window {α : Type} [AddCommMonoid α] :
    ∀ (O : List Int) (S F : List Nat) (h : List Nat → α), windowFits O S F = true →
      ((indices F).map (fun j => if inWindow O S j = true then h j else 0)).sum =
        ((indices S).map (fun i => h (shift i O))).sum
  | [], [], [], h, _ => by simp [indices, inWindow, shift]
  | o :: os, s :: ss, f :: fs, h, hf => by
      simp only [windowFits, Bool.and_eq_true, decide_eq_true_eq] at hf
      obtain ⟨⟨ho, hfit⟩, hrest⟩ := hf
      obtain ⟨n, rfl⟩ := Int.eq_ofNat_of_zero_le ho
      rw [sum_indices_cons, sum_indices_cons]
      have step : ∀ a : Nat,
          ((indices fs).map (fun js =>
            if inWindow ((n : Int) :: os) (s :: ss) (a :: js) = true then h (a :: js) else 0)).sum
          = if n ≤ a ∧ a < n + s
            then ((indices ss).map (fun is => h (a :: shift is os))).sum else 0 := by
        intro a
        by_cases hw : n ≤ a ∧ a < n + s
        · rw [if_pos hw, ← sum_window os ss fs (fun js => h (a :: js)) hrest]
          have e : (decide ((n : Int) ≤ (a : Int)) && decide ((a : Int) < (n : Int) + (s : Int)))
              = true := by
            simp only [Bool.and_eq_true, decide_eq_true_eq]; omega
          simp only [inWindow, e, Bool.true_and]
        · rw [if_neg hw]
          have e : (decide ((n : Int) ≤ (a : Int)) && decide ((a : Int) < (n : Int) + (s : Int)))
              = false := by
            simp only [Bool.and_eq_false_iff, decide_eq_false_iff_not]; omega
          simp only [inWindow, e, Bool.false_and, Bool.false_eq_true, if_false]
          simp
      simp only [step]
      rw [sum_range_window (fun a => ((indices ss).map (fun is => h (a :: shift is os))).sum)
        n s f (by omega)]
      have e : ∀ (b : Nat) (is : List Nat),
          shift (b :: is) ((n : Int) :: os) = (b + n) :: shift is os := by
        intro b is
        simp only [shift, List.zipWith_cons_cons, List.cons.injEq, and_true]
        omega
      simp only [e]
  | [], _ :: _, _, _, hf => by simp [windowFits] at hf
  | [], [], _ :: _, _, hf => by simp [windowFits] at hf
  | _ :: _, [], _, _, hf => by simp [windowFits] at hf
  | _ :: _, _ :: _, [], _, hf => by simp [windowFits] at hf

theorem unshift_shift : ∀ (O : List Int) (S F idx : List Nat), windowFits O S F = true →
    inRange S idx = true → unshift (shift idx O) O = idx
  | [], [], [], [], _, _ => by simp [shift, unshift]
  | o :: os, s :: ss, f :: fs, i :: is, hf, hr => by
      simp only [windowFits, Bool.and_eq_true, decide_eq_true_eq] at hf
      simp only [inRange, Bool.and_eq_true, decide_eq_true_eq] at hr
      have ih := unshift_shift os ss fs is hf.2 hr.2
      simp only [shift, unshift] at ih
      simp only [shift, unshift, List.zipWith_cons_cons, ih, List.cons.injEq, and_true]
      omega
  | [], [], [], _ :: _, _, hr => by simp [inRange] at hr
  | _ :: _, _ :: _, _ :: _, [], _, hr => by simp [inRange] at hr
  | [], _ :: _, _, _, hf, _ => by simp [windowFits] at hf
  | [], [], _ :: _, _, hf, _ => by simp [windowFits] at hf
  | _ :: _, [], _, _, hf, _ => by simp [windowFits] at hf
  | _ :: _, _ :: _, [], _, hf, _ => by simp [windowFits] at hf

/-! ## Reading the written storage through multi-indices -/

theorem crop_get {α : Type} [Zero α] (X : Tensor α) (O : List Int) (S : List Nat)
    (written : List α) (hfit : windowFits O S X.dims = true)
    (hget : ∀ idx, inRange S idx = true →
      written[ravel S idx]? = X.data[ravel X.dims (shift idx O)]?)
    (idx : List Nat) (hidx : inRange S idx = true) :
    (Tensor.mk S written).get idx = X.get (shift idx O) := by
  have hsh := inRange_shift _ _ _ _ hfit hidx
  simp only [Tensor.get, Tensor.elemAt, hidx, hsh, if_true, hget idx hidx]

theorem scatter_get {α : Type} [Zero α] (G : Tensor α) (O : List Int) (F : List Nat)
    (written : List α)
    (hget : ∀ idx, inRange F idx = true →
      written[ravel F idx]? =
        if inWindow O G.dims idx then G.data[ravel G.dims (unshift idx O)]? else some 0)
    (idx : List Nat) (hidx : inRange F idx = true) :
    (Tensor.mk F written).get idx = if inWindow O G.dims idx then G.get (unshift idx O) else 0 := by
  simp only [Tensor.get, Tensor.elemAt, hidx, if_true, hget idx hidx]
  by_cases hw : inWindow O G.dims idx = true
  · simp only [hw, if_true, inRange_unshift _ _ _ hw]
  · simp only [hw, if_false, Bool.false_eq_true, Option.getD_some]

/-! ## Adjointness -/

/-- C3, as stated, fails: on an `X` of rank 1 with 2147483650 elements, a `G` of one element
and offset `0`, which satisfy every condition of the claim, the forward kernel stores the
high amount `-2147483649` as the `int` `2147483647` and runs out of the storage of `Out`:
there is no `Crop(X)` to sum over. -/
theorem crop_grad_not_adjoint_beyond_int :
    (1 ≤ hugeCropCtx.X.dims.length ∧ hugeCropCtx.X.dims.length ≤ 6 ∧
      hugeCropCtx.X.Allocated ∧ hugeCropCtx.OutGrad.Allocated ∧
      hugeCropCtx.OutGrad.dims = hugeCropCtx.Out.dims ∧
      hugeCropCtx.XGrad.dims = hugeCropCtx.X.dims ∧
      windowFits hugeCropCtx.offsets hugeCropCtx.Out.dims hugeCropCtx.X.dims = true) ∧
    ¬ ∃ out dx, CropKernel.Compute hugeCropCtx = .returned { hugeCropCtx with Out := out } ∧
      CropGradKernel.Compute hugeCropCtx = .returned { hugeCropCtx with XGrad := dx } ∧
      tensorDot hugeCropCtx.Out.dims out hugeCropCtx.OutGrad =
        tensorDot hugeCropCtx.X.dims hugeCropCtx.X dx :=
  ⟨⟨by decide, by decide, hugeCropCtx_allocated, by decide, by decide, by decide, by decide⟩,
    fun ⟨_, _, h, _⟩ => Outcome.noConfusion (hugeCropCtx_outOfBounds.symm.trans h)⟩

/-- C3, amended. The backward operation is the exact adjoint of the forward crop: over a
semiring of exact elements, for `X` of rank 1..6, `G` of the shape of `Out`, a gradient of
`X` of the shape of `X`, offsets of a window that fits, and every amount of the forward and
of the backward descriptor a value of the 32-bit type `int`, both kernels return and the sum
over `out_dims` of `Crop(X)[idx] * G[idx]` equals the sum over `x_dims` of
`X[idx] * GradScatter(G)[idx]`. -/
theorem crop_grad_is_adjoint {α : Type} [Semiring α] (c : ExecutionContext α)
    (hrank1 : 1 ≤ c.X.dims.length) (hrank6 : c.X.dims.length ≤ 6)
    (hX : c.X.Allocated) (hG : c.OutGrad.Allocated)
    (hS : c.OutGrad.dims = c.Out.dims) (hF : c.XGrad.dims = c.X.dims)
    (hfit : windowFits c.offsets c.Out.dims c.X.dims = true)
    (hintF : descriptorFits (cropDesc c.offsets c.X.dims c.Out.dims) = true)
    (hintB : descriptorFits (cropGradDesc c.offsets c.XGrad.dims c.OutGrad.dims) = true) :
    ∃ out dx, CropKernel.Compute c = .returned { c with Out := out } ∧
      CropGradKernel.Compute c = .returned { c with XGrad := dx } ∧
      tensorDot c.Out.dims out c.OutGrad = tensorDot c.X.dims c.X dx := by
  have hlen := windowFits_length _ _ _ hfit
  obtain ⟨w1, hret1, _, hget1, _⟩ := CropFunction_spec c.X.dims.length c rfl hX hfit hintF
  obtain ⟨w2, hret2, _, hget2, _⟩ := CropGradFunction_spec c.OutGrad.dims.length c rfl hG
    (by rw [hS]; omega) (by rw [hS, hF]; omega) hintB
  refine ⟨⟨c.Out.dims, w1⟩, ⟨c.XGrad.dims, w2⟩, ?_, ?_, ?_⟩
  · rw [CropKernel_dispatch c hrank1 hrank6, hret1]
  · rw [CropGradKernel_dispatch c (by rw [hS]; omega) (by rw [hS]; omega), hret2]
  · have hL : tensorDot c.Out.dims ⟨c.Out.dims, w1⟩ c.OutGrad =
        ((indices c.Out.dims).map
          (fun i => c.X.get (shift i c.offsets) * c.OutGrad.get i)).sum := by
      unfold tensorDot
      congr 1
      apply List.map_congr_left
      intro idx hmem
      rw [crop_get c.X c.offsets c.Out.dims w1 hfit hget1 idx (mem_indices _ _ hmem)]
    have hR : tensorDot c.X.dims c.X ⟨c.XGrad.dims, w2⟩ =
        ((indices c.X.dims).map (fun j =>
          if inWindow c.offsets c.Out.dims j = true
          then c.X.get j * c.OutGrad.get (unshift j c.offsets) else 0)).sum := by
      unfold tensorDot
      congr 1
      apply List.map_congr_left
      intro idx hmem
      rw [scatter_get c.OutGrad c.offsets c.XGrad.dims w2 hget2 idx
        (by rw [hF]; exact mem_indices _ _ hmem), hS]
      split
      · rfl
      · exact mul_zero _
    rw [hL, hR, sum_window c.offsets c.Out.dims c.X.dims
      (fun j => c.X.get j * c.OutGrad.get (unshift j c.offsets)) hfit]
    congr 1
    apply List.map_congr_left
    intro idx hmem
    simp only [unshift_shift _ _ _ _ hfit (mem_indices _ _ hmem)]

/-- C3, amended, at the worked example: both sums are `5 + 6 + 9 + 10 = 30`. -/
theorem crop_grad_is_adjoint_witness :
    (1 ≤ exampleCtx.X.dims.length ∧ exampleCtx.X.dims.length ≤ 6 ∧
      exampleCtx.X.Allocated ∧ exampleCtx.OutGrad.Allocated ∧
      exampleCtx.OutGrad.dims = exampleCtx.Out.dims ∧ exampleCtx.XGrad.dims = exampleCtx.X.dims ∧
      windowFits exampleCtx.offsets exampleCtx.Out.dims exampleCtx.X.dims = true ∧
      descriptorFits (cropDesc exampleCtx.offsets exampleCtx.X.dims exampleCtx.Out.dims) = true ∧
      descriptorFits (cropGradDesc exampleCtx.offsets exampleCtx.XGrad.dims
        exampleCtx.OutGrad.dims) = true) ∧
    (∃ out dx, CropKernel.Compute exampleCtx = .returned { exampleCtx with Out := out } ∧
      CropGradKernel.Compute exampleCtx = .returned { exampleCtx with XGrad := dx } ∧
      tensorDot exampleCtx.Out.dims out exampleCtx.OutGrad = tensorDot exampleCtx.X.dims exampleCtx.X dx) ∧
    tensorDot [2, 2] ⟨[2, 2], [5, 6, 9, 10]⟩ exampleCtx.OutGrad = 30 ∧
    tensorDot [4, 4] exampleCtx.X ⟨[4, 4], [0, 0, 0, 0, 0, 1, 1, 0, 0, 1, 1, 0, 0, 0, 0, 0]⟩ = 30 :=
  ⟨⟨by decide, by decide, by decide, by decide, by decide, by decide, by decide, by decide,
      by decide⟩,
    crop_grad_is_adjoint exampleCtx (by decide) (by decide) (by decide) (by decide)
      (by decide) (by decide) (by decide) (by decide) (by decide),
    by decide, by decide⟩

/-! ## Composing the two kernels -/

theorem inWindow_shift : ∀ (O : List Int) (S F idx : List Nat), windowFits O S F = true →
    inRange S idx = true → inWindow O S (shift idx O) = true
  | [], [], [], [], _, _ => by simp [shift, inWindow]
  | o :: os, s :: ss, f :: fs, i :: is, hf, hr => by
      simp only [windowFits, Bool.and_eq_true, decide_eq_true_eq] at hf
      simp only [inRange, Bool.and_eq_true, decide_eq_true_eq] at hr
      have ih := inWindow_shift os ss fs is hf.2 hr.2
      simp only [shift, List.zipWith_cons_cons, inWindow, Bool.and_eq_true, decide_eq_true_eq]
      exact ⟨⟨by omega, by omega⟩, ih⟩
  | [], [], [], _ :: _, _, hr => by simp [inRange] at hr
  | _ :: _, _ :: _, _ :: _, [], _, hr => by simp [inRange] at hr
  | [], _ :: _, _, _, hf, _ => by simp [windowFits] at hf
  | [], [], _ :: _, _, hf, _ => by simp [windowFits] at hf
  | _ :: _, [], _, _, hf, _ => by simp [windowFits] at hf
  | _ :: _, _ :: _, [], _, hf, _ => by simp [windowFits] at hf

theorem shift_unshift : ∀ (O : List Int) (S idx : List Nat), inWindow O S idx = true →
    shift (unshift idx O) O = idx
  | [], [], [], _ => by simp [shift, unshift]
  | o :: os, s :: ss, i :: is, h => by
      simp only [inWindow, Bool.and_eq_true, decide_eq_true_eq] at h
      have ih := shift_unshift os ss is h.2
      simp only [shift, unshift] at ih
      simp only [shift, unshift, List.zipWith_cons_cons, ih, List.cons.injEq, and_true]
      omega
  | [], _ :: _, _, h => by simp [inWindow] at h
  | [], [], _ :: _, h => by simp [inWindow] at h
  | _ :: _, [], _, h => by simp [inWindow] at h
  | _ :: _, _ :: _, [], h => by simp [inWindow] at h

theorem take_eq_of_getElem {α : Type} (a b : List α) (n : Nat)
    (h : ∀ k, k < n → a[k]? = b[k]?) : a.take n = b.take n := by
  apply List.ext_getElem?
  intro k
  simp only [List.getElem?_take]
  split
  · rename_i hk; exact h k hk
  · rfl

theorem flat_of_ravel {α : Type} (S : List Nat) (w : List α) (g : List Nat → Option α)
    (h : ∀ idx, inRange S idx = true → w[ravel S idx]? = g idx) (k : Nat) (hk : k < numel S) :
    w[k]? = g (unravel S k) := by
  have := h (unravel S k) (inRange_unravel S k hk)
  rwa [ravel_unravel S k hk] at this

/-- C4, as stated, fails: for a `d_out` of one element, offset `0` and a full shape of rank 1
with 4294967298 elements, which satisfy every condition of the claim, the gradient kernel
returns a `d_x`, but the forward kernel run on `X := d_x` stores the high amount
`-4294967297` as the `int` `-1`, builds a pad expression of 4294967297 elements and runs out
of the storage of `Out`: it does not return `d_out`. -/
theorem crop_does_not_undo_scatter_beyond_int :
    (1 ≤ hugeGradCtx.OutGrad.dims.length ∧ hugeGradCtx.OutGrad.dims.length ≤ 6 ∧
      hugeGradCtx.OutGrad.Allocated ∧ hugeGradCtx.Out.dims = hugeGradCtx.OutGrad.dims ∧
      windowFits hugeGradCtx.offsets hugeGradCtx.OutGrad.dims hugeGradCtx.XGrad.dims = true) ∧
    cropPaddings 1 hugeGradCtx.offsets hugeGradCtx.XGrad.dims hugeGradCtx.Out.dims =
      some [(0, -1)] ∧
    (∃ dx, CropGradKernel.Compute hugeGradCtx = .returned { hugeGradCtx with XGrad := dx } ∧
      CropKernel.Compute { hugeGradCtx with X := dx } = .outOfBounds) ∧
    ¬ ∃ dx out, CropGradKernel.Compute hugeGradCtx = .returned { hugeGradCtx with XGrad := dx } ∧
      CropKernel.Compute { hugeGradCtx with X := dx } =
        .returned { hugeGradCtx with X := dx, Out := out } := by
  have hfwd : CropKernel.Compute
      { hugeGradCtx with
        X := ⟨[4294967298], 1 :: 0 :: (List.replicate 4294967298 (9 : Int)).drop 2⟩ } =
      .outOfBounds :=
    CropKernel_oversize_outOfBounds _ 4294967298 (-1) (by decide) (by decide) rfl
      (by show 4294967298 ≤ (1 :: 0 :: (List.replicate 4294967298 (9 : Int)).drop 2).length
          rw [List.length_cons, List.length_cons, List.length_drop, List.length_replicate])
      rfl rfl
  refine ⟨⟨by decide, by decide, by decide, by decide, by decide⟩, by decide,
    ⟨_, hugeGradCtx_returned 9, hfwd⟩, ?_⟩
  rintro ⟨dx, out, hg, hf⟩
  have e := (hugeGradCtx_returned 9).symm.trans hg
  injection e with e
  have e2 := congrArg ExecutionContext.XGrad e
  simp only at e2
  rw [← e2, hfwd] at hf
  cases hf

/-- C4, amended. Crop undoes scatter: for `d_out` of rank 1..6 and shape `S` holding its
data, a full shape `F` and offsets `O` with `O[i] >= 0` and `O[i] + S[i] <= F[i]`, and every
amount of the backward and of the forward descriptor a value of the 32-bit type `int`, the
gradient kernel returns some `d_x`, and the forward kernel run on `X := d_x` with offsets `O`
and an output of shape `S` returns an output that equals `d_out` at every index of `S`, and
whose storage over these `numel S` positions is the storage of `d_out`. -/
theorem crop_undoes_scatter {α : Type} [Zero α] (c : ExecutionContext α)
    (hrank1 : 1 ≤ c.OutGrad.dims.length) (hrank6 : c.OutGrad.dims.length ≤ 6)
    (hG : c.OutGrad.Allocated) (hS : c.Out.dims = c.OutGrad.dims)
    (hfit : windowFits c.offsets c.OutGrad.dims c.XGrad.dims = true)
    (hintB : descriptorFits (cropGradDesc c.offsets c.XGrad.dims c.OutGrad.dims) = true)
    (hintF : descriptorFits (cropDesc c.offsets c.XGrad.dims c.OutGrad.dims) = true) :
    ∃ dx out, CropGradKernel.Compute c = .returned { c with XGrad := dx } ∧
      CropKernel.Compute { c with X := dx } = .returned { c with X := dx, Out := out } ∧
      out.dims = c.OutGrad.dims ∧
      out.data.take (numel c.OutGrad.dims) = c.OutGrad.data.take (numel c.OutGrad.dims) ∧
      ∀ idx, inRange c.OutGrad.dims idx = true →
        (out.elemAt idx).isSome = true ∧ out.elemAt idx = c.OutGrad.elemAt idx := by
  have hlen := windowFits_length _ _ _ hfit
  obtain ⟨w2, hret2, hwl2, hget2, _⟩ :=
    CropGradFunction_spec c.OutGrad.dims.length c rfl hG (by omega) (by omega) hintB
  have hdxAlloc : (Tensor.mk c.XGrad.dims w2).Allocated := by
    show numel c.XGrad.dims ≤ w2.length
    rw [hwl2]; exact mutable_data_allocated _ _
  have hfit' : windowFits ({ c with X := ⟨c.XGrad.dims, w2⟩ } : ExecutionContext α).offsets
      ({ c with X := ⟨c.XGrad.dims, w2⟩ } : ExecutionContext α).Out.dims
      ({ c with X := ⟨c.XGrad.dims, w2⟩ } : ExecutionContext α).X.dims = true := by
    show windowFits c.offsets c.Out.dims c.XGrad.dims = true
    rw [hS]; exact hfit
  obtain ⟨w1, hret1, _, hget1, _⟩ :=
    CropFunction_spec c.XGrad.dims.length { c with X := ⟨c.XGrad.dims, w2⟩ } rfl hdxAlloc hfit'
      (by show descriptorFits (cropDesc c.offsets c.XGrad.dims c.Out.dims) = true
          rw [hS]; exact hintF)
  have hG' : numel c.OutGrad.dims ≤ c.OutGrad.data.length := hG
  have hval : ∀ idx, inRange c.OutGrad.dims idx = true →
      w1[ravel c.OutGrad.dims idx]? = c.OutGrad.data[ravel c.OutGrad.dims idx]? := by
    intro idx hidx
    have h1 := hget1 idx (by show inRange c.Out.dims idx = true; rw [hS]; exact hidx)
    have h1' : w1[ravel c.OutGrad.dims idx]? =
        w2[ravel c.XGrad.dims (shift idx c.offsets)]? := by
      rw [← hS]; exact h1
    rw [h1', hget2 _ (inRange_shift _ _ _ _ hfit hidx),
      if_pos (inWindow_shift _ _ _ _ hfit hidx), unshift_shift _ _ _ _ hfit hidx]
  refine ⟨⟨c.XGrad.dims, w2⟩, ⟨c.OutGrad.dims, w1⟩, ?_, ?_, rfl, ?_, ?_⟩
  · rw [CropGradKernel_dispatch c hrank1 hrank6, hret2]
  · rw [CropKernel_dispatch _ (by show 1 ≤ c.XGrad.dims.length; omega)
      (by show c.XGrad.dims.length ≤ 6; omega)]
    show CropFunction c.XGrad.dims.length _ = _
    rw [hret1]
    show Outcome.returned { c with X := ⟨c.XGrad.dims, w2⟩, Out := ⟨c.Out.dims, w1⟩ } = _
    rw [hS]
  · apply take_eq_of_getElem
    intro k hk
    have := flat_of_ravel c.OutGrad.dims w1
      (fun idx => c.OutGrad.data[ravel c.OutGrad.dims idx]?) hval k hk
    simpa only [ravel_unravel _ _ hk] using this
  · intro idx hidx
    have hlt := ravel_lt _ _ hidx
    simp only [Tensor.elemAt, hidx, if_true, hval idx hidx, and_true]
    rw [List.getElem?_eq_getElem (by omega)]; rfl

/-- C4, amended, at the worked example: cropping the scattered `[[1,1],[1,1]]` gives it
back. -/
theorem crop_undoes_scatter_witness :
    (1 ≤ exampleCtx.OutGrad.dims.length ∧ exampleCtx.OutGrad.dims.length ≤ 6 ∧
      exampleCtx.OutGrad.Allocated ∧ exampleCtx.Out.dims = exampleCtx.OutGrad.dims ∧
      windowFits exampleCtx.offsets exampleCtx.OutGrad.dims exampleCtx.XGrad.dims = true ∧
      descriptorFits (cropGradDesc exampleCtx.offsets exampleCtx.XGrad.dims
        exampleCtx.OutGrad.dims) = true ∧
      descriptorFits (cropDesc exampleCtx.offsets exampleCtx.XGrad.dims
        exampleCtx.OutGrad.dims) = true) ∧
    (∃ dx out, CropGradKernel.Compute exampleCtx = .returned { exampleCtx with XGrad := dx } ∧
      CropKernel.Compute { exampleCtx with X := dx } =
        .returned { exampleCtx with X := dx, Out := out } ∧
      out.dims = exampleCtx.OutGrad.dims ∧
      out.data.take (numel exampleCtx.OutGrad.dims) =
        exampleCtx.OutGrad.data.take (numel exampleCtx.OutGrad.dims) ∧
      ∀ idx, inRange exampleCtx.OutGrad.dims idx = true →
        (out.elemAt idx).isSome = true ∧ out.elemAt idx = exampleCtx.OutGrad.elemAt idx) ∧
    (CropKernel.Compute { exampleCtx with
        X := ⟨[4, 4], [0, 0, 0, 0, 0, 1, 1, 0, 0, 1, 1, 0, 0, 0, 0, 0]⟩ }).out? =
      some ⟨[2, 2], [1, 1, 1, 1]⟩ :=
  ⟨⟨by decide, by decide, by decide, by decide, by decide, by decide, by decide⟩,
    crop_undoes_scatter exampleCtx (by decide) (by decide) (by decide) (by decide) (by decide)
      (by decide) (by decide),
    by rfl⟩

/-- C5, as stated, fails: on an `X` of rank 1 with 2147483650 elements, offset `0` and a
window of one element, which satisfy every condition of the claim, the forward kernel stores
the high amount `-2147483649` as the `int` `2147483647` and runs out of the storage of `Out`:
there is no `Crop(X, O, S)` to scatter back. -/
theorem scatter_after_crop_fails_beyond_int :
    (1 ≤ hugeCropCtx.X.dims.length ∧ hugeCropCtx.X.dims.length ≤ 6 ∧
      hugeCropCtx.X.Allocated ∧ hugeCropCtx.XGrad.dims = hugeCropCtx.X.dims ∧
      windowFits hugeCropCtx.offsets hugeCropCtx.Out.dims hugeCropCtx.X.dims = true) ∧
    ¬ ∃ out dx, CropKernel.Compute hugeCropCtx = .returned { hugeCropCtx with Out := out } ∧
      CropGradKernel.Compute { hugeCropCtx with OutGrad := out } =
        .returned { hugeCropCtx with OutGrad := out, XGrad := dx } :=
  ⟨⟨by decide, by decide, hugeCropCtx_allocated, by decide, by decide⟩,
    fun ⟨_, _, h, _⟩ => Outcome.noConfusion (hugeCropCtx_outOfBounds.symm.trans h)⟩

/-- C5, amended. Scatter after crop is a window mask: for `X` of rank 1..6 holding its data,
offsets `O` and a window shape `S` with `O[i] >= 0` and `O[i] + S[i] <= X.shape[i]`, and
every amount of the forward and of the backward descriptor a value of the 32-bit type `int`,
the forward kernel returns some `Out`, and the gradient kernel run on `d_out := Out` with the
same offsets and a target of the shape of `X` returns a tensor that equals `X` at every index
inside the window `[O, O + S)` and `0` at every other index of `X.shape`. -/
theorem scatter_after_crop_is_mask {α : Type} [Zero α] (c : ExecutionContext α)
    (hrank1 : 1 ≤ c.X.dims.length) (hrank6 : c.X.dims.length ≤ 6)
    (hX : c.X.Allocated) (hF : c.XGrad.dims = c.X.dims)
    (hfit : windowFits c.offsets c.Out.dims c.X.dims = true)
    (hintF : descriptorFits (cropDesc c.offsets c.X.dims c.Out.dims) = true)
    (hintB : descriptorFits (cropGradDesc c.offsets c.X.dims c.Out.dims) = true) :
    ∃ out dx, CropKernel.Compute c = .returned { c with Out := out } ∧
      CropGradKernel.Compute { c with OutGrad := out } =
        .returned { c with OutGrad := out, XGrad := dx } ∧
      dx.dims = c.X.dims ∧
      ∀ idx, inRange c.X.dims idx = true →
        (inWindow c.offsets c.Out.dims idx = true →
          (dx.elemAt idx).isSome = true ∧ dx.elemAt idx = c.X.elemAt idx) ∧
        (inWindow c.offsets c.Out.dims idx = false → dx.elemAt idx = some 0) := by
  have hlen := windowFits_length _ _ _ hfit
  obtain ⟨w1, hret1, hwl1, hget1, _⟩ := CropFunction_spec c.X.dims.length c rfl hX hfit hintF
  have hoAlloc : (Tensor.mk c.Out.dims w1).Allocated := by
    show numel c.Out.dims ≤ w1.length
    rw [hwl1]; exact mutable_data_allocated _ _
  obtain ⟨w2, hret2, _, hget2, _⟩ :=
    CropGradFunction_spec c.Out.dims.length { c with OutGrad := ⟨c.Out.dims, w1⟩ } rfl hoAlloc
      (by show c.offsets.length = c.Out.dims.length; omega)
      (by show c.XGrad.dims.length = c.Out.dims.length; rw [hF]; omega)
      (by show descriptorFits (cropGradDesc c.offsets c.XGrad.dims c.Out.dims) = true
          rw [hF]; exact hintB)
  have hX' : numel c.X.dims ≤ c.X.data.length := hX
  refine ⟨⟨c.Out.dims, w1⟩, ⟨c.X.dims, w2⟩, ?_, ?_, rfl, ?_⟩
  · rw [CropKernel_dispatch c hrank1 hrank6, hret1]
  · rw [CropGradKernel_dispatch _ (by show 1 ≤ c.Out.dims.length; omega)
      (by show c.Out.dims.length ≤ 6; omega)]
    show CropGradFunction c.Out.dims.length _ = _
    rw [hret2]
    show Outcome.returned
      { c with OutGrad := ⟨c.Out.dims, w1⟩, XGrad := ⟨c.XGrad.dims, w2⟩ } = _
    rw [hF]
  · intro idx hidx
    have hval := hget2 idx (by show inRange c.XGrad.dims idx = true; rw [hF]; exact hidx)
    have hval' : w2[ravel c.X.dims idx]? =
        if inWindow c.offsets c.Out.dims idx = true
        then w1[ravel c.Out.dims (unshift idx c.offsets)]? else some 0 := by
      rw [← hF]; exact hval
    have hlt := ravel_lt _ _ hidx
    constructor
    · intro hwin
      rw [if_pos hwin, hget1 _ (inRange_unshift _ _ _ hwin), shift_unshift _ _ _ hwin] at hval'
      simp only [Tensor.elemAt, hidx, if_true, hval', and_true]
      rw [List.getElem?_eq_getElem (by omega)]; rfl
    · intro hwin
      rw [if_neg (by simp [hwin])] at hval'
      simp only [Tensor.elemAt, hidx, if_true, hval']

/-- C5, amended, at the worked example: scattering `[[5,6],[9,10]]` back gives `X` masked by
the window. -/
theorem scatter_after_crop_is_mask_witness :
    (1 ≤ exampleCtx.X.dims.length ∧ exampleCtx.X.dims.length ≤ 6 ∧ exampleCtx.X.Allocated ∧
      exampleCtx.XGrad.dims = exampleCtx.X.dims ∧
      windowFits exampleCtx.offsets exampleCtx.Out.dims exampleCtx.X.dims = true ∧
      descriptorFits (cropDesc exampleCtx.offsets exampleCtx.X.dims exampleCtx.Out.dims) = true ∧
      descriptorFits (cropGradDesc exampleCtx.offsets exampleCtx.X.dims
        exampleCtx.Out.dims) = true) ∧
    (∃ out dx, CropKernel.Compute exampleCtx = .returned { exampleCtx with Out := out } ∧
      CropGradKernel.Compute { exampleCtx with OutGrad := out } =
        .returned { exampleCtx with OutGrad := out, XGrad := dx } ∧
      dx.dims = exampleCtx.X.dims ∧
      ∀ idx, inRange exampleCtx.X.dims idx = true →
        (inWindow exampleCtx.offsets exampleCtx.Out.dims idx = true →
          (dx.elemAt idx).isSome = true ∧ dx.elemAt idx = exampleCtx.X.elemAt idx) ∧
        (inWindow exampleCtx.offsets exampleCtx.Out.dims idx = false →
          dx.elemAt idx = some 0)) ∧
    (CropGradKernel.Compute { exampleCtx with OutGrad := ⟨[2, 2], [5, 6, 9, 10]⟩ }).xGrad? =
      some ⟨[4, 4], [0, 0, 0, 0, 0, 5, 6, 0, 0, 9, 10, 0, 0, 0, 0, 0]⟩ :=
  ⟨⟨by decide, by decide, by decide, by decide, by decide, by decide, by decide⟩,
    scatter_after_crop_is_mask exampleCtx (by decide) (by decide) (by decide) (by decide)
      (by decide) (by decide) (by decide),
    by rfl⟩

/-! ## The identity crop -/

theorem windowFits_replicate_zero : ∀ (X : List Nat),
    windowFits (List.replicate X.length 0) X X = true
  | [] => by simp [windowFits]
  | x :: xs => by
      simp [windowFits, List.replicate_succ, windowFits_replicate_zero xs]

theorem cropDesc_replicate_zero : ∀ (X : List Nat),
    cropDesc (List.replicate X.length 0) X X = List.replicate X.length (0, 0)
  | [] => by simp [cropDesc]
  | x :: xs => by
      simp [cropDesc, List.replicate_succ, cropDesc_replicate_zero xs]

theorem descriptorFits_replicate_zero : ∀ (n : Nat),
    descriptorFits (List.replicate n (0, 0)) = true
  | 0 => rfl
  | n + 1 => by
      simp only [List.replicate_succ, descriptorFits, descriptorFits_replicate_zero n,
        Bool.and_true]
      decide

theorem shift_replicate_zero : ∀ (X idx : List Nat), inRange X idx = true →
    shift idx (List.replicate X.length 0) = idx
  | [], [], _ => by simp [shift]
  | x :: xs, i :: is, h => by
      simp only [inRange, Bool.and_eq_true, decide_eq_true_eq] at h
      have ih := shift_replicate_zero xs is h.2
      simp only [shift] at ih
      simp [shift, List.replicate_succ, ih]
  | [], _ :: _, h => by simp [inRange] at h
  | _ :: _, [], h => by simp [inRange] at h

/-- C6. Identity crop: for `X` of rank 1..6 holding its data, offsets all `0` and
`out_dims = x_dims`, the forward function builds the descriptor `(0, 0)` on every axis, and
the kernel returns an output of the shape of `X` that equals `X` at every index and whose
storage over the `numel` positions of the shape is the storage of `X`. -/
theorem identity_crop_is_copy {α : Type} [Zero α] (c : ExecutionContext α)
    (hrank1 : 1 ≤ c.X.dims.length) (hrank6 : c.X.dims.length ≤ 6) (hX : c.X.Allocated)
    (hO : c.offsets = List.replicate c.X.dims.length 0) (hS : c.Out.dims = c.X.dims) :
    cropPaddings c.X.dims.length c.offsets c.X.dims (c.Out.mutable_data c.fresh).dims =
        some (List.replicate c.X.dims.length (0, 0)) ∧
    ∃ out, CropKernel.Compute c = .returned { c with Out := out } ∧ out.dims = c.X.dims ∧
      out.data.take (numel c.X.dims) = c.X.data.take (numel c.X.dims) ∧
      ∀ idx, inRange c.X.dims idx = true →
        (out.elemAt idx).isSome = true ∧ out.elemAt idx = c.X.elemAt idx := by
  have hfit : windowFits c.offsets c.Out.dims c.X.dims = true := by
    rw [hO, hS]; exact windowFits_replicate_zero _
  have hint : descriptorFits (cropDesc c.offsets c.X.dims c.Out.dims) = true := by
    rw [hO, hS, cropDesc_replicate_zero]; exact descriptorFits_replicate_zero _
  obtain ⟨written, hret, _, hget, _⟩ := CropFunction_spec c.X.dims.length c rfl hX hfit hint
  have hX' : numel c.X.dims ≤ c.X.data.length := hX
  have hval : ∀ idx, inRange c.X.dims idx = true →
      written[ravel c.X.dims idx]? = c.X.data[ravel c.X.dims idx]? := by
    intro idx hidx
    have := hget idx (by rw [hS]; exact hidx)
    rw [hS, hO, shift_replicate_zero _ _ hidx] at this
    exact this
  refine ⟨?_, ⟨c.X.dims, written⟩, ?_, rfl, ?_, ?_⟩
  · rw [mutable_data_dims,
      cropPaddings_eq c.X.dims.length _ _ _ (by rw [hO]; simp) rfl (by rw [hS]) hint, hO, hS,
      cropDesc_replicate_zero]
  · rw [CropKernel_dispatch c hrank1 hrank6, hret, hS]
  · apply take_eq_of_getElem
    intro k hk
    have := flat_of_ravel c.X.dims written
      (fun idx => c.X.data[ravel c.X.dims idx]?) hval k hk
    simpa only [ravel_unravel _ _ hk] using this
  · intro idx hidx
    have hlt := ravel_lt _ _ hidx
    simp only [Tensor.elemAt, hidx, if_true, hval idx hidx, and_true]
    rw [List.getElem?_eq_getElem (by omega)]; rfl

/-- C6 at the `[4,4]` example tensor: descriptor `[(0,0),(0,0)]` and an exact copy. -/
theorem identity_crop_is_copy_witness :
    (1 ≤ identityCtx.X.dims.length ∧ identityCtx.X.dims.length ≤ 6 ∧ identityCtx.X.Allocated ∧
      identityCtx.offsets = List.replicate identityCtx.X.dims.length 0 ∧
      identityCtx.Out.dims = identityCtx.X.dims) ∧
    (cropPaddings identityCtx.X.dims.length identityCtx.offsets identityCtx.X.dims
        (identityCtx.Out.mutable_data identityCtx.fresh).dims =
        some (List.replicate identityCtx.X.dims.length (0, 0)) ∧
      ∃ out, CropKernel.Compute identityCtx = .returned { identityCtx with Out := out } ∧
        out.dims = identityCtx.X.dims ∧
        out.data.take (numel identityCtx.X.dims) =
          identityCtx.X.data.take (numel identityCtx.X.dims) ∧
        ∀ idx, inRange identityCtx.X.dims idx = true →
          (out.elemAt idx).isSome = true ∧ out.elemAt idx = identityCtx.X.elemAt idx) ∧
    (CropKernel.Compute identityCtx).out? = some identityCtx.X :=
  ⟨⟨by decide, by decide, by decide, by decide, by decide⟩,
    identity_crop_is_copy identityCtx (by decide) (by decide) (by decide) (by decide)
      (by decide),
    by rfl⟩

/-! ## Descriptor and shape -/

/-- C7, as stated, fails: with `offsets = [-2147483648]`, `d_out_dims = [2]` and
`d_x_dims = [4]` the backward function stores `(-2147483648, -2147483646)` (the exact high
amount `2147483650` is no value of `int`), and `4` is not `2 + low + high`; with
`offsets = [2147483647]`, `x_dims = [1]` and `out_dims = [2]` the forward function stores
`(-2147483647, -2147483648)`, and `2` is not `1 + low + high`. -/
theorem descriptor_shape_inconsistent_beyond_int :
    cropGradPaddings 1 [-2147483648] [4] [2] = some [(-2147483648, -2147483646)] ∧
    ((4 : Nat) : Int) ≠ ((2 : Nat) : Int) + (-2147483648) + (-2147483646) ∧
    (¬ ∃ p, cropGradPaddings 1 [-2147483648] [4] [2] = some p ∧
      ∀ i, i < 1 → ∃ lo hi, p[i]? = some (lo, hi) ∧
        (([4] : List Nat).getD i 0 : Int) = (([2] : List Nat).getD i 0 : Int) + lo + hi) ∧
    cropPaddings 1 [2147483647] [1] [2] = some [(-2147483647, -2147483648)] ∧
    ((2 : Nat) : Int) ≠ ((1 : Nat) : Int) + (-2147483647) + (-2147483648) ∧
    (¬ ∃ p, cropPaddings 1 [2147483647] [1] [2] = some p ∧
      ∀ i, i < 1 → ∃ lo hi, p[i]? = some (lo, hi) ∧
        (([2] : List Nat).getD i 0 : Int) = (([1] : List Nat).getD i 0 : Int) + lo + hi) := by
  have hb : cropGradPaddings 1 [-2147483648] [4] [2] = some [(-2147483648, -2147483646)] := by
    decide
  have hf : cropPaddings 1 [2147483647] [1] [2] = some [(-2147483647, -2147483648)] := by
    decide
  refine ⟨hb, by decide, ?_, hf, by decide, ?_⟩
  · rintro ⟨p, hp, h⟩
    rw [hb] at hp
    injection hp with hp
    subst hp
    obtain ⟨lo, hi, h0, he⟩ := h 0 (by decide)
    simp only [List.getElem?_cons_zero, Option.some.injEq, Prod.mk.injEq] at h0
    simp only [List.getD_cons_zero] at he
    omega
  · rintro ⟨p, hp, h⟩
    rw [hf] at hp
    injection hp with hp
    subst hp
    obtain ⟨lo, hi, h0, he⟩ := h 0 (by decide)
    simp only [List.getElem?_cons_zero, Option.some.injEq, Prod.mk.injEq] at h0
    simp only [List.getD_cons_zero] at he
    omega

/-- C7, amended. Descriptor/shape consistency, with no validity assumption on the offsets:
whenever the containers are long enough for the loops to run, the forward function builds its
descriptor and on every axis `i < D` the extents `out_dims[i]` and
`x_dims[i] + low[i] + high[i]` are congruent modulo `2^32`, and equal when the exact amounts
`-offsets[i]` and `-(x_dims[i] - out_dims[i] - offsets[i])` are values of the 32-bit type
`int`; the backward function builds its descriptor and on every axis `i` of `d_out` the
extents `d_x_dims[i]` and `d_out_dims[i] + low[i] + high[i]` are congruent modulo `2^32`, and
equal when the exact amounts `offsets[i]` and `d_x_dims[i] - d_out_dims[i] - offsets[i]` are
values of `int`. -/
theorem descriptor_shape_consistency (D : Nat) (offsets : List Int)
    (x_dims out_dims d_x_dims d_out_dims : List Nat)
    (ho : D ≤ offsets.length) (hx : D ≤ x_dims.length) (hs : D ≤ out_dims.length)
    (hgD : d_out_dims.length ≤ D) (hgx : d_out_dims.length ≤ d_x_dims.length) :
    (∃ p, cropPaddings D offsets x_dims out_dims = some p ∧ p.length = D ∧
      ∀ i, i < D → ∃ lo hi, p[i]? = some (lo, hi) ∧
        ((x_dims.getD i 0 : Int) + lo + hi - (out_dims.getD i 0 : Int)) % 4294967296 = 0 ∧
        (fitsInt (-(offsets.getD i 0)) = true →
          fitsInt (-((x_dims.getD i 0 : Int) - (out_dims.getD i 0 : Int) - offsets.getD i 0))
            = true →
          (out_dims.getD i 0 : Int) = (x_dims.getD i 0 : Int) + lo + hi)) ∧
    (∃ p, cropGradPaddings D offsets d_x_dims d_out_dims = some p ∧ p.length = D ∧
      ∀ i, i < d_out_dims.length → ∃ lo hi, p[i]? = some (lo, hi) ∧
        ((d_out_dims.getD i 0 : Int) + lo + hi - (d_x_dims.getD i 0 : Int)) % 4294967296 = 0 ∧
        (fitsInt (offsets.getD i 0) = true →
          fitsInt ((d_x_dims.getD i 0 : Int) - (d_out_dims.getD i 0 : Int) - offsets.getD i 0)
            = true →
          (d_x_dims.getD i 0 : Int) = (d_out_dims.getD i 0 : Int) + lo + hi)) := by
  constructor
  · refine ⟨_, cropPaddings_range D offsets x_dims out_dims ho hx hs, by simp, ?_⟩
    intro i hi
    refine ⟨(cropEntry offsets x_dims out_dims i).1, (cropEntry offsets x_dims out_dims i).2,
      ?_, ?_, ?_⟩
    · rw [List.getElem?_map, List.getElem?_range hi]; rfl
    · simp only [cropEntry, narrowInt]; omega
    · intro h1 h2
      simp only [cropEntry, narrowInt_of_fits _ h1, narrowInt_of_fits _ h2]; omega
  · refine ⟨_, cropGradPaddings_range D offsets d_x_dims d_out_dims hgD (by omega) hgx,
      by simp; omega, ?_⟩
    intro i hi
    refine ⟨(cropGradEntry offsets d_x_dims d_out_dims i).1,
      (cropGradEntry offsets d_x_dims d_out_dims i).2, ?_, ?_, ?_⟩
    · rw [List.getElem?_append_left (by simpa using hi), List.getElem?_map,
        List.getElem?_range hi]; rfl
    · simp only [cropGradEntry, narrowInt]; omega
    · intro h1 h2
      simp only [cropGradEntry, narrowInt_of_fits _ h1, narrowInt_of_fits _ h2]; omega

/-- C7, amended, at offsets `[3, -1]` that do not describe a window of the `[4,4]` input. -/
theorem descriptor_shape_consistency_witness :
    ((2 : Nat) ≤ ([3, -1] : List Int).length ∧ 2 ≤ [4, 4].length ∧ 2 ≤ [2, 2].length ∧
      [2, 2].length ≤ 2 ∧ [2, 2].length ≤ [4, 4].length) ∧
    ((∃ p, cropPaddings 2 [3, -1] [4, 4] [2, 2] = some p ∧ p.length = 2 ∧
      ∀ i, i < 2 → ∃ lo hi, p[i]? = some (lo, hi) ∧
        ((([4, 4] : List Nat).getD i 0 : Int) + lo + hi -
          (([2, 2] : List Nat).getD i 0 : Int)) % 4294967296 = 0 ∧
        (fitsInt (-(([3, -1] : List Int).getD i 0)) = true →
          fitsInt (-((([4, 4] : List Nat).getD i 0 : Int) -
            (([2, 2] : List Nat).getD i 0 : Int) - ([3, -1] : List Int).getD i 0)) = true →
          (([2, 2] : List Nat).getD i 0 : Int) =
            (([4, 4] : List Nat).getD i 0 : Int) + lo + hi)) ∧
    (∃ p, cropGradPaddings 2 [3, -1] [4, 4] [2, 2] = some p ∧ p.length = 2 ∧
      ∀ i, i < [2, 2].length → ∃ lo hi, p[i]? = some (lo, hi) ∧
        ((([2, 2] : List Nat).getD i 0 : Int) + lo + hi -
          (([4, 4] : List Nat).getD i 0 : Int)) % 4294967296 = 0 ∧
        (fitsInt (([3, -1] : List Int).getD i 0) = true →
          fitsInt ((([4, 4] : List Nat).getD i 0 : Int) -
            (([2, 2] : List Nat).getD i 0 : Int) - ([3, -1] : List Int).getD i 0) = true →
          (([4, 4] : List Nat).getD i 0 : Int) =
            (([2, 2] : List Nat).getD i 0 : Int) + lo + hi))) ∧
    cropPaddings 2 [3, -1] [4, 4] [2, 2] = some [(-3, 1), (1, -3)] ∧
    cropGradPaddings 2 [3, -1] [4, 4] [2, 2] = some [(3, -1), (-1, 3)] :=
  ⟨⟨by decide, by decide, by decide, by decide, by decide⟩,
    descriptor_shape_consistency 2 [3, -1] [4, 4] [2, 2] [4, 4] [2, 2]
      (by decide) (by decide) (by decide) (by decide) (by decide),
    by decide, by decide⟩

/-! ## The offsets-length check -/

theorem From_error {α : Type} (D : Nat) (t : Tensor α) (msg : String)
    (h : EigenTensor.From D t = .error msg) : msg = rankMismatchMsg ∨ msg = noMemoryMsg := by
  unfold EigenTensor.From at h
  split at h
  · left; injection h with h; exact h.symm
  · split at h
    · right; injection h with h; exact h.symm
    · cases h

theorem CropFunction_of_length_eq {α : Type} [Zero α] (D : Nat) (c : ExecutionContext α)
    (h : c.X.dims.length = c.offsets.length) (c1 : ExecutionContext α) :
    CropFunction D c ≠ .threw offsetsSizeMsg c1 := by
  have hr : rankMismatchMsg ≠ offsetsSizeMsg := by decide
  have hn : noMemoryMsg ≠ offsetsSizeMsg := by decide
  unfold CropFunction
  simp only [h, ne_eq, not_true_eq_false, if_false]
  split
  · exact fun h => Outcome.noConfusion h
  · split
    · rename_i msg hmsg
      intro heq
      injection heq with h1 _
      rcases From_error _ _ _ hmsg with h2 | h2
      · exact hr (h2 ▸ h1)
      · exact hn (h2 ▸ h1)
    · split
      · rename_i msg hmsg
        intro heq
        injection heq with h1 _
        rcases From_error _ _ _ hmsg with h2 | h2
        · exact hr (h2 ▸ h1)
        · exact hn (h2 ▸ h1)
      · split
        · exact fun h => Outcome.noConfusion h
        · exact fun h => Outcome.noConfusion h

/-- C8. Forward length check: for every `D`, `CropFunction` throws the offsets-size enforce
failure if and only if the number of offsets differs from the rank of `X`; when it does, it
throws whatever `D` and the shapes are (no entry of the descriptor has been read or stored)
and the state at the throw is the one right after the allocation of `Out`: no element of
`Out` has been written by the pad step, so an `Out` that already held memory is untouched. -/
theorem forward_length_check {α : Type} [Zero α] (D : Nat) (c : ExecutionContext α) :
    ((∃ c1, CropFunction D c = .threw offsetsSizeMsg c1) ↔
      c.offsets.length ≠ c.X.dims.length) ∧
    (c.offsets.length ≠ c.X.dims.length →
      CropFunction D c = .threw offsetsSizeMsg { c with Out := c.Out.mutable_data c.fresh } ∧
      (c.Out.Allocated → CropFunction D c = .threw offsetsSizeMsg c)) := by
  have key : c.offsets.length ≠ c.X.dims.length →
      CropFunction D c = .threw offsetsSizeMsg { c with Out := c.Out.mutable_data c.fresh } := by
    intro h
    unfold CropFunction
    simp only []
    rw [if_pos (fun e => h e.symm)]
  refine ⟨⟨?_, fun h => ⟨_, key h⟩⟩, fun h => ⟨key h, fun ha => ?_⟩⟩
  · rintro ⟨c1, hc1⟩ heq
    exact CropFunction_of_length_eq D c heq.symm c1 hc1
  · rw [key h, mutable_data_of_allocated _ _ ha]

/-- C8 at a rank-2 input with a single offset: the call throws and `Out` is as before. -/
theorem forward_length_check_witness :
    shortOffsetsCtx.offsets.length ≠ shortOffsetsCtx.X.dims.length ∧
    (((∃ c1, CropFunction 2 shortOffsetsCtx = .threw offsetsSizeMsg c1) ↔
      shortOffsetsCtx.offsets.length ≠ shortOffsetsCtx.X.dims.length) ∧
    (shortOffsetsCtx.offsets.length ≠ shortOffsetsCtx.X.dims.length →
      CropFunction 2 shortOffsetsCtx = .threw offsetsSizeMsg
        { shortOffsetsCtx with Out := shortOffsetsCtx.Out.mutable_data shortOffsetsCtx.fresh } ∧
      (shortOffsetsCtx.Out.Allocated →
        CropFunction 2 shortOffsetsCtx = .threw offsetsSizeMsg shortOffsetsCtx))) ∧
    cropPaddings 2 shortOffsetsCtx.offsets shortOffsetsCtx.X.dims shortOffsetsCtx.Out.dims = none :=
  ⟨by decide, forward_length_check 2 shortOffsetsCtx, by decide⟩

/-! ## Ranks outside 1..6 -/

theorem CropKernel_default {α : Type} [Zero α] (c : ExecutionContext α)
    (h : c.X.dims.length < 1 ∨ 6 < c.X.dims.length) :
    CropKernel.Compute c = .returned { c with log := c.log ++ [rankMsg] } := by
  unfold CropKernel.Compute
  generalize c.X.dims.length = n at h
  rcases Nat.lt_or_ge n 7 with h7 | h7
  · interval_cases n
    · rfl
    all_goals omega
  · obtain ⟨m, rfl⟩ : ∃ m, n = m + 7 := ⟨n - 7, by omega⟩
    rfl

theorem CropGradKernel_default {α : Type} [Zero α] (c : ExecutionContext α)
    (h : c.OutGrad.dims.length < 1 ∨ 6 < c.OutGrad.dims.length) :
    CropGradKernel.Compute c = .returned { c with log := c.log ++ [rankMsg] } := by
  unfold CropGradKernel.Compute
  generalize c.OutGrad.dims.length = n at h
  rcases Nat.lt_or_ge n 7 with h7 | h7
  · interval_cases n
    · rfl
    all_goals omega
  · obtain ⟨m, rfl⟩ : ∃ m, n = m + 7 := ⟨n - 7, by omega⟩
    rfl

/-- C9, as stated, fails: on operands of rank 7 both kernels return normally, with the
message in the log, and neither throws. -/
theorem unsupported_rank_not_rejected :
    CropKernel.Compute rank7Ctx = .returned { rank7Ctx with log := [rankMsg] } ∧
    CropGradKernel.Compute rank7Ctx = .returned { rank7Ctx with log := [rankMsg] } ∧
    (∀ msg c1, CropKernel.Compute rank7Ctx ≠ .threw msg c1) ∧
    (∀ msg c1, CropGradKernel.Compute rank7Ctx ≠ .threw msg c1) :=
  ⟨rfl, rfl, fun _ _ h => Outcome.noConfusion h, fun _ _ h => Outcome.noConfusion h⟩

/-- C9, amended. For operands whose rank is outside 1..6, `CropKernel::Compute` and
`CropGradKernel::Compute` report the unsupported rank through the log only: the call
completes normally, no error is raised to the caller, and the message
"Only ranks up to 6 supported." is the last entry of the log. -/
theorem unsupported_rank_logged_only {α : Type} [Zero α] (c : ExecutionContext α)
    (hX : c.X.dims.length < 1 ∨ 6 < c.X.dims.length)
    (hG : c.OutGrad.dims.length < 1 ∨ 6 < c.OutGrad.dims.length) :
    (∃ c1, CropKernel.Compute c = .returned c1 ∧ c1.log = c.log ++ [rankMsg]) ∧
    (∃ c1, CropGradKernel.Compute c = .returned c1 ∧ c1.log = c.log ++ [rankMsg]) :=
  ⟨⟨_, CropKernel_default c hX, rfl⟩, ⟨_, CropGradKernel_default c hG, rfl⟩⟩

/-- C9, amended, at operands of rank 7. -/
theorem unsupported_rank_logged_only_witness :
    ((rank7Ctx.X.dims.length < 1 ∨ 6 < rank7Ctx.X.dims.length) ∧
      (rank7Ctx.OutGrad.dims.length < 1 ∨ 6 < rank7Ctx.OutGrad.dims.length)) ∧
    ((∃ c1, CropKernel.Compute rank7Ctx = .returned c1 ∧
        c1.log = rank7Ctx.log ++ [rankMsg]) ∧
      (∃ c1, CropGradKernel.Compute rank7Ctx = .returned c1 ∧
        c1.log = rank7Ctx.log ++ [rankMsg])) :=
  ⟨⟨by decide, by decide⟩,
    unsupported_rank_logged_only rank7Ctx (by decide) (by decide)⟩

/-- C10. No computation on unsupported rank: for operands whose rank is outside 1..6 both
kernels return the context they were given with one more log entry; `X`, `Out`, `d_out`,
`d_x` (shape and storage, allocated or not) and the offsets are exactly as before the
call. -/
theorem unsupported_rank_no_computation {α : Type} [Zero α] (c : ExecutionContext α)
    (hX : c.X.dims.length < 1 ∨ 6 < c.X.dims.length)
    (hG : c.OutGrad.dims.length < 1 ∨ 6 < c.OutGrad.dims.length) :
    (∃ c1, CropKernel.Compute c = .returned c1 ∧ c1 = { c with log := c.log ++ [rankMsg] } ∧
      c1.Out = c.Out ∧ c1.X = c.X ∧ c1.XGrad = c.XGrad ∧ c1.OutGrad = c.OutGrad) ∧
    (∃ c1, CropGradKernel.Compute c = .returned c1 ∧
      c1 = { c with log := c.log ++ [rankMsg] } ∧
      c1.XGrad = c.XGrad ∧ c1.OutGrad = c.OutGrad ∧ c1.Out = c.Out ∧ c1.X = c.X) :=
  ⟨⟨_, CropKernel_default c hX, rfl, rfl, rfl, rfl, rfl⟩,
    ⟨_, CropGradKernel_default c hG, rfl, rfl, rfl, rfl, rfl⟩⟩

/-- C10 at operands of rank 0 that hold no memory: the outputs are still unallocated after
the calls. -/
theorem unsupported_rank_no_computation_witness :
    ((rank0Ctx.X.dims.length < 1 ∨ 6 < rank0Ctx.X.dims.length) ∧
      (rank0Ctx.OutGrad.dims.length < 1 ∨ 6 < rank0Ctx.OutGrad.dims.length)) ∧
    ((∃ c1, CropKernel.Compute rank0Ctx = .returned c1 ∧
        c1 = { rank0Ctx with log := rank0Ctx.log ++ [rankMsg] } ∧
        c1.Out = rank0Ctx.Out ∧ c1.X = rank0Ctx.X ∧ c1.XGrad = rank0Ctx.XGrad ∧
        c1.OutGrad = rank0Ctx.OutGrad) ∧
      (∃ c1, CropGradKernel.Compute rank0Ctx = .returned c1 ∧
        c1 = { rank0Ctx with log := rank0Ctx.log ++ [rankMsg] } ∧
        c1.XGrad = rank0Ctx.XGrad ∧ c1.OutGrad = rank0Ctx.OutGrad ∧ c1.Out = rank0Ctx.Out ∧
        c1.X = rank0Ctx.X)) ∧
    (CropKernel.Compute rank0Ctx).out? = some ⟨[], []⟩ ∧
    (CropGradKernel.Compute rank0Ctx).xGrad? = some ⟨[], []⟩ :=
  ⟨⟨by decide, by decide⟩,
    unsupported_rank_no_computation rank0Ctx (by decide) (by decide),
    by rfl, by rfl⟩

/-! ## The gradient does not depend on what `d_x` held before -/

theorem mutable_data_length_of_le {α : Type} (t : Tensor α) (fresh : Nat → α)
    (h : t.data.length ≤ numel t.dims) : (t.mutable_data fresh).data.length = numel t.dims := by
  unfold Tensor.mutable_data
  split
  · omega
  · simp

/-- C11, as stated, fails: for a `d_out` of one element, offset `0` and a `d_x` of rank 1 with
4294967298 elements, which satisfy every condition of the claim, the exact high amount
`4294967297` is stored as the `int` `1` and the kernel writes positions 0 and 1 only: a run
on a `d_x` that held `9` everywhere and a run on a `d_x` that held `5` everywhere return
tensors that differ at index `2`. -/
theorem grad_depends_on_prior_dx_beyond_int :
    (1 ≤ hugeGradCtx.OutGrad.dims.length ∧ hugeGradCtx.OutGrad.dims.length ≤ 6 ∧
      hugeGradCtx.OutGrad.Allocated ∧
      windowFits hugeGradCtx.offsets hugeGradCtx.OutGrad.dims hugeGradCtx.XGrad.dims = true) ∧
    inRange hugeGradCtx.XGrad.dims [2] = true ∧
    (∃ dx1 dx2, CropGradKernel.Compute hugeGradCtx = .returned { hugeGradCtx with XGrad := dx1 } ∧
      CropGradKernel.Compute
          { hugeGradCtx with
            XGrad := ⟨hugeGradCtx.XGrad.dims, List.replicate 4294967298 5⟩,
            fresh := hugeGradCtx.fresh } =
        .returned { hugeGradCtx with XGrad := dx2, fresh := hugeGradCtx.fresh } ∧
      dx1.elemAt [2] = some 9 ∧ dx2.elemAt [2] = some 5) ∧
    ¬ ∃ dx1 dx2, CropGradKernel.Compute hugeGradCtx =
        .returned { hugeGradCtx with XGrad := dx1 } ∧
      CropGradKernel.Compute
          { hugeGradCtx with
            XGrad := ⟨hugeGradCtx.XGrad.dims, List.replicate 4294967298 5⟩,
            fresh := hugeGradCtx.fresh } =
        .returned { hugeGradCtx with XGrad := dx2, fresh := hugeGradCtx.fresh } ∧
      dx1.elemAt [2] = dx2.elemAt [2] := by
  refine ⟨⟨by decide, by decide, by decide, by decide⟩, by decide,
    ⟨_, _, hugeGradCtx_returned 9, hugeGradCtx_returned 5, huge_dx_elemAt_two 9,
      huge_dx_elemAt_two 5⟩, ?_⟩
  rintro ⟨dx1, dx2, h1, h2, he⟩
  have e1 := (hugeGradCtx_returned 9).symm.trans h1
  have e2 := (hugeGradCtx_returned 5).symm.trans h2
  injection e1 with e1
  injection e2 with e2
  have f1 := congrArg ExecutionContext.XGrad e1
  have f2 := congrArg ExecutionContext.XGrad e2
  simp only at f1 f2
  rw [← f1, ← f2, huge_dx_elemAt_two 9, huge_dx_elemAt_two 5] at he
  cases he

/-- C11, amended. The backward result does not depend on the prior contents of `d_x`: for
`d_out` of rank 1..6 holding its data, offsets of a window that fits, and every amount of the
backward descriptor a value of the 32-bit type `int`, a run on `d_x` with any other
initial storage (and any other contents of fresh memory) returns a `d_x` with the same shape,
the same element at every index and the same storage over the `numel` positions of the
shape; when both initial storages hold at most `numel` elements the two results are the same
tensor.  `d_out` is unchanged by the call. -/
theorem grad_independent_of_prior_dx {α : Type} [Zero α] (c : ExecutionContext α)
    (data2 : List α) (fresh2 : Nat → α)
    (hrank1 : 1 ≤ c.OutGrad.dims.length) (hrank6 : c.OutGrad.dims.length ≤ 6)
    (hG : c.OutGrad.Allocated)
    (hfit : windowFits c.offsets c.OutGrad.dims c.XGrad.dims = true)
    (hint : descriptorFits (cropGradDesc c.offsets c.XGrad.dims c.OutGrad.dims) = true) :
    ∃ dx1 dx2, CropGradKernel.Compute c = .returned { c with XGrad := dx1 } ∧
      CropGradKernel.Compute { c with XGrad := ⟨c.XGrad.dims, data2⟩, fresh := fresh2 } =
        .returned { c with XGrad := dx2, fresh := fresh2 } ∧
      ({ c with XGrad := dx1 } : ExecutionContext α).OutGrad = c.OutGrad ∧
      dx1.dims = c.XGrad.dims ∧ dx2.dims = c.XGrad.dims ∧
      dx1.data.take (numel c.XGrad.dims) = dx2.data.take (numel c.XGrad.dims) ∧
      (∀ idx, inRange c.XGrad.dims idx = true →
        (dx1.elemAt idx).isSome = true ∧ dx1.elemAt idx = dx2.elemAt idx) ∧
      (c.XGrad.data.length ≤ numel c.XGrad.dims → data2.length ≤ numel c.XGrad.dims →
        dx1 = dx2) := by
  have hlen := windowFits_length _ _ _ hfit
  obtain ⟨w1, hret1, hwl1, hget1, _⟩ :=
    CropGradFunction_spec c.OutGrad.dims.length c rfl hG (by omega) (by omega) hint
  obtain ⟨w2, hret2, hwl2, hget2, _⟩ :=
    CropGradFunction_spec c.OutGrad.dims.length
      { c with XGrad := ⟨c.XGrad.dims, data2⟩, fresh := fresh2 } rfl hG
      (by show c.offsets.length = c.OutGrad.dims.length; omega)
      (by show c.XGrad.dims.length = c.OutGrad.dims.length; omega) hint
  have hsame : ∀ idx, inRange c.XGrad.dims idx = true →
      w1[ravel c.XGrad.dims idx]? = w2[ravel c.XGrad.dims idx]? := by
    intro idx hidx
    rw [hget1 idx hidx]
    exact (hget2 idx hidx).symm
  have htake : w1.take (numel c.XGrad.dims) = w2.take (numel c.XGrad.dims) := by
    apply take_eq_of_getElem
    intro k hk
    have := hsame _ (inRange_unravel _ _ hk)
    rwa [ravel_unravel _ _ hk] at this
  have hl1 : numel c.XGrad.dims ≤ w1.length := by
    rw [hwl1]; exact mutable_data_allocated _ _
  refine ⟨⟨c.XGrad.dims, w1⟩, ⟨c.XGrad.dims, w2⟩, ?_, ?_, rfl, rfl, rfl, htake, ?_, ?_⟩
  · rw [CropGradKernel_dispatch c hrank1 hrank6, hret1]
  · rw [CropGradKernel_dispatch _ (by show 1 ≤ c.OutGrad.dims.length; omega)
      (by show c.OutGrad.dims.length ≤ 6; omega)]
    exact hret2
  · intro idx hidx
    have hlt := ravel_lt _ _ hidx
    simp only [Tensor.elemAt, hidx, if_true, hsame idx hidx, and_true]
    rw [← hsame idx hidx, List.getElem?_eq_getElem (by omega)]; rfl
  · intro h1 h2
    have e1 : w1.length = numel c.XGrad.dims := by
      rw [hwl1]; exact mutable_data_length_of_le _ _ h1
    have e2 : w2.length = numel c.XGrad.dims := by
      rw [hwl2]
      exact mutable_data_length_of_le (Tensor.mk c.XGrad.dims data2) fresh2 h2
    have t1 : w1.take (numel c.XGrad.dims) = w1 := List.take_of_length_le (by omega)
    have t2 : w2.take (numel c.XGrad.dims) = w2 := List.take_of_length_le (by omega)
    rw [t1, t2] at htake
    rw [htake]

/-- C11, amended, at the worked example, run once on an unallocated `d_x` and once on a `d_x`
that holds sixteen 9s: the same tensor results. -/
theorem grad_independent_of_prior_dx_witness :
    (1 ≤ exampleCtx.OutGrad.dims.length ∧ exampleCtx.OutGrad.dims.length ≤ 6 ∧
      exampleCtx.OutGrad.Allocated ∧
      windowFits exampleCtx.offsets exampleCtx.OutGrad.dims exampleCtx.XGrad.dims = true ∧
      descriptorFits (cropGradDesc exampleCtx.offsets exampleCtx.XGrad.dims
        exampleCtx.OutGrad.dims) = true) ∧
    (∃ dx1 dx2, CropGradKernel.Compute exampleCtx = .returned { exampleCtx with XGrad := dx1 } ∧
      CropGradKernel.Compute
          { exampleCtx with
            XGrad := ⟨exampleCtx.XGrad.dims, List.replicate 16 9⟩, fresh := fun _ => 5 } =
        .returned { exampleCtx with XGrad := dx2, fresh := fun _ => 5 } ∧
      ({ exampleCtx with XGrad := dx1 } : ExecutionContext Int).OutGrad = exampleCtx.OutGrad ∧
      dx1.dims = exampleCtx.XGrad.dims ∧ dx2.dims = exampleCtx.XGrad.dims ∧
      dx1.data.take (numel exampleCtx.XGrad.dims) =
        dx2.data.take (numel exampleCtx.XGrad.dims) ∧
      (∀ idx, inRange exampleCtx.XGrad.dims idx = true →
        (dx1.elemAt idx).isSome = true ∧ dx1.elemAt idx = dx2.elemAt idx) ∧
      (exampleCtx.XGrad.data.length ≤ numel exampleCtx.XGrad.dims →
        (List.replicate 16 (9 : Int)).length ≤ numel exampleCtx.XGrad.dims → dx1 = dx2)) ∧
    (CropGradKernel.Compute
        { exampleCtx with XGrad := ⟨[4, 4], List.replicate 16 9⟩, fresh := fun _ => 5 }).xGrad? =
      (CropGradKernel.Compute exampleCtx).xGrad? :=
  ⟨⟨by decide, by decide, by decide, by decide, by decide⟩,
    grad_independent_of_prior_dx exampleCtx (List.replicate 16 9) (fun _ => 5)
      (by decide) (by decide) (by decide) (by decide) (by decide),
    by rfl⟩

/-! ## Values and signs of the descriptors -/

theorem cropPaddings_getElem (D : Nat) (offsets : List Int) (x_dims out_dims : List Nat)
    (ho : D ≤ offsets.length) (hx : D ≤ x_dims.length) (hs : D ≤ out_dims.length) :
    ∃ p, cropPaddings D offsets x_dims out_dims = some p ∧ p.length = D ∧
      ∀ i, i < D → p[i]? = some (cropEntry offsets x_dims out_dims i) := by
  refine ⟨_, cropPaddings_range D offsets x_dims out_dims ho hx hs, by simp, ?_⟩
  intro i hi
  rw [List.getElem?_map, List.getElem?_range hi]; rfl

theorem cropGradPaddings_getElem (D : Nat) (offsets : List Int) (d_x_dims d_out_dims : List Nat)
    (hD : d_out_dims.length ≤ D) (ho : d_out_dims.length ≤ offsets.length)
    (hx : d_out_dims.length ≤ d_x_dims.length) :
    ∃ p, cropGradPaddings D offsets d_x_dims d_out_dims = some p ∧ p.length = D ∧
      (∀ i, i < d_out_dims.length → p[i]? = some (cropGradEntry offsets d_x_dims d_out_dims i)) ∧
      (∀ i, d_out_dims.length ≤ i → i < D → p[i]? = some (0, 0)) := by
  refine ⟨_, cropGradPaddings_range D offsets d_x_dims d_out_dims hD ho hx, by simp; omega,
    ?_, ?_⟩
  · intro i hi
    rw [List.getElem?_append_left (by simpa using hi), List.getElem?_map,
      List.getElem?_range hi]; rfl
  · intro i h1 h2
    rw [List.getElem?_append_right (by simpa using h1)]
    simp only [List.length_map, List.length_range]
    rw [List.getElem?_replicate]
    rw [if_pos (by omega)]

/-- C12, as stated, fails: with `x_dims = [4]`, `out_dims = [2]`, `offsets = [3]` the window
does not fit (`3 + 2 > 4`), the descriptor is `(-3, 1)`, and its high amount `1` is positive,
not a negative amount of magnitude above `4`. -/
theorem out_of_window_high_not_negative :
    (3 : Int) + ((2 : Nat) : Int) > ((4 : Nat) : Int) ∧
    cropPaddings 1 [3] [4] [2] = some [(-3, 1)] ∧
    ¬ ∃ p lo hi, cropPaddings 1 [3] [4] [2] = some p ∧ p[0]? = some (lo, hi) ∧
      hi < 0 ∧ ((4 : Nat) : Int) < -hi := by
  refine ⟨by decide, by decide, ?_⟩
  rintro ⟨p, lo, hi, hp, h0, hneg, _⟩
  have e : cropPaddings 1 [3] [4] [2] = some [(-3, 1)] := by decide
  rw [e] at hp
  injection hp with hp
  subst hp
  simp only [List.getElem?_cons_zero, Option.some.injEq, Prod.mk.injEq] at h0
  omega

/-- C12, amended. On every axis `i` on which the crop window does not fit, i.e.
`offsets[i] + out_dims[i] > x_dims[i]`, the forward descriptor is still computed without error
and, when `offsets[i] + out_dims[i] - x_dims[i]` is at most `2147483647` (a value of the
32-bit type `int`), its high amount is positive: it equals
`offsets[i] + out_dims[i] - x_dims[i]`. -/
theorem out_of_window_high_positive (D : Nat) (offsets : List Int) (x_dims out_dims : List Nat)
    (ho : D ≤ offsets.length) (hx : D ≤ x_dims.length) (hs : D ≤ out_dims.length) :
    ∃ p, cropPaddings D offsets x_dims out_dims = some p ∧ p.length = D ∧
      ∀ i, i < D → offsets.getD i 0 + (out_dims.getD i 0 : Int) > (x_dims.getD i 0 : Int) →
        offsets.getD i 0 + (out_dims.getD i 0 : Int) - (x_dims.getD i 0 : Int) ≤ 2147483647 →
        ∃ lo hi, p[i]? = some (lo, hi) ∧ 0 < hi ∧
          hi = offsets.getD i 0 + (out_dims.getD i 0 : Int) - (x_dims.getD i 0 : Int) := by
  obtain ⟨p, hp, hlen, hget⟩ := cropPaddings_getElem D offsets x_dims out_dims ho hx hs
  refine ⟨p, hp, hlen, fun i hi hw hmax => ?_⟩
  refine ⟨(cropEntry offsets x_dims out_dims i).1, (cropEntry offsets x_dims out_dims i).2,
    hget i hi, ?_, ?_⟩
  · simp only [cropEntry, narrowInt]; omega
  · simp only [cropEntry, narrowInt]; omega

/-- C12, amended, at `x_dims = [4, 4]`, `out_dims = [2, 2]`, `offsets = [3, 1]`: the window
sticks out on axis 0 only, where the high amount is `3 + 2 - 4 = 1`; at
`offsets = [2147483647]`, `x_dims = [1]`, `out_dims = [2]` the value `2147483648` is no value
of `int` and the high amount stored is `-2147483648`. -/
theorem out_of_window_high_positive_witness :
    ((2 : Nat) ≤ ([3, 1] : List Int).length ∧ 2 ≤ [4, 4].length ∧ 2 ≤ [2, 2].length) ∧
    (∃ p, cropPaddings 2 [3, 1] [4, 4] [2, 2] = some p ∧ p.length = 2 ∧
      ∀ i, i < 2 →
        ([3, 1] : List Int).getD i 0 + (([2, 2] : List Nat).getD i 0 : Int) >
          (([4, 4] : List Nat).getD i 0 : Int) →
        ([3, 1] : List Int).getD i 0 + (([2, 2] : List Nat).getD i 0 : Int) -
          (([4, 4] : List Nat).getD i 0 : Int) ≤ 2147483647 →
        ∃ lo hi, p[i]? = some (lo, hi) ∧ 0 < hi ∧
          hi = ([3, 1] : List Int).getD i 0 + (([2, 2] : List Nat).getD i 0 : Int) -
            (([4, 4] : List Nat).getD i 0 : Int)) ∧
    cropPaddings 2 [3, 1] [4, 4] [2, 2] = some [(-3, 1), (-1, -1)] ∧
    cropPaddings 1 [2147483647] [1] [2] = some [(-2147483647, -2147483648)] :=
  ⟨⟨by decide, by decide, by decide⟩,
    out_of_window_high_positive 2 [3, 1] [4, 4] [2, 2] (by decide) (by decide) (by decide),
    by decide, by decide⟩

/-- C13, as stated, fails: with `offsets = [-2147483648]`, `x_dims = [4]`, `out_dims = [2]`
the forward function stores `(-2147483648, 2147483646)`, not
`(-offsets[0], -(x_dims[0] - out_dims[0] - offsets[0])) = (2147483648, -2147483650)`, whose
two amounts are no values of `int`; and with `offsets = [0]`, `x_dims = [2147483650]`,
`out_dims = [1]`, a window that fits, it stores `(0, 2147483647)`, whose high amount is
positive. -/
theorem forward_descriptor_narrowed :
    cropPaddings 1 [-2147483648] [4] [2] = some [(-2147483648, 2147483646)] ∧
    (-(-2147483648 : Int) = 2147483648 ∧
      -((((4 : Nat) : Int)) - ((2 : Nat) : Int) - (-2147483648)) = -2147483650) ∧
    (¬ ∃ p lo hi, cropPaddings 1 [-2147483648] [4] [2] = some p ∧ p[0]? = some (lo, hi) ∧
      lo = -(([-2147483648] : List Int).getD 0 0) ∧
      hi = -((([4] : List Nat).getD 0 0 : Int) - (([2] : List Nat).getD 0 0 : Int) -
        ([-2147483648] : List Int).getD 0 0)) ∧
    ((0 : Int) ≤ 0 ∧ (0 : Int) + ((1 : Nat) : Int) ≤ ((2147483650 : Nat) : Int)) ∧
    cropPaddings 1 [0] [2147483650] [1] = some [(0, 2147483647)] ∧
    ¬ ∃ p lo hi, cropPaddings 1 [0] [2147483650] [1] = some p ∧ p[0]? = some (lo, hi) ∧
      lo ≤ 0 ∧ hi ≤ 0 := by
  have e : cropPaddings 1 [-2147483648] [4] [2] = some [(-2147483648, 2147483646)] := by
    decide
  have e2 : cropPaddings 1 [0] [2147483650] [1] = some [(0, 2147483647)] := by
    decide
  refine ⟨e, ⟨by decide, by decide⟩, ?_, ⟨by decide, by decide⟩, e2, ?_⟩
  · rintro ⟨p, lo, hi, hp, h0, hlo, _⟩
    rw [e] at hp
    injection hp with hp
    subst hp
    simp only [List.getElem?_cons_zero, Option.some.injEq, Prod.mk.injEq] at h0
    simp only [List.getD_cons_zero] at hlo
    omega
  · rintro ⟨p, lo, hi, hp, h0, _, hhi⟩
    rw [e2] at hp
    injection hp with hp
    subst hp
    simp only [List.getElem?_cons_zero, Option.some.injEq, Prod.mk.injEq] at h0
    omega

/-- C13, amended. Forward descriptor and its sign: whenever the containers are long enough
for the loop to run, the forward function builds on every axis `i < D` the pair
`(low, high)` of the amounts `-offsets[i]` and `-(x_dims[i] - out_dims[i] - offsets[i])`
narrowed to the 32-bit type `int`, which are these amounts themselves whenever they are values
of `int`; and whenever `offsets[i] >= 0`, `offsets[i] + out_dims[i] <= x_dims[i]` and both
amounts are values of `int`, `low` and `high` are `<= 0`. -/
theorem forward_descriptor_and_sign (D : Nat) (offsets : List Int) (x_dims out_dims : List Nat)
    (ho : D ≤ offsets.length) (hx : D ≤ x_dims.length) (hs : D ≤ out_dims.length) :
    ∃ p, cropPaddings D offsets x_dims out_dims = some p ∧ p.length = D ∧
      ∀ i, i < D → ∃ lo hi, p[i]? = some (lo, hi) ∧
        lo = narrowInt (-(offsets.getD i 0)) ∧
        hi = narrowInt
          (-((x_dims.getD i 0 : Int) - (out_dims.getD i 0 : Int) - offsets.getD i 0)) ∧
        (fitsInt (-(offsets.getD i 0)) = true → lo = -(offsets.getD i 0)) ∧
        (fitsInt (-((x_dims.getD i 0 : Int) - (out_dims.getD i 0 : Int) - offsets.getD i 0))
            = true →
          hi = -((x_dims.getD i 0 : Int) - (out_dims.getD i 0 : Int) - offsets.getD i 0)) ∧
        (0 ≤ offsets.getD i 0 →
          offsets.getD i 0 + (out_dims.getD i 0 : Int) ≤ (x_dims.getD i 0 : Int) →
          fitsInt (-(offsets.getD i 0)) = true →
          fitsInt (-((x_dims.getD i 0 : Int) - (out_dims.getD i 0 : Int) - offsets.getD i 0))
            = true →
          lo ≤ 0 ∧ hi ≤ 0) := by
  obtain ⟨p, hp, hlen, hget⟩ := cropPaddings_getElem D offsets x_dims out_dims ho hx hs
  refine ⟨p, hp, hlen, fun i hi => ?_⟩
  refine ⟨(cropEntry offsets x_dims out_dims i).1, (cropEntry offsets x_dims out_dims i).2,
    hget i hi, rfl, rfl, fun h => narrowInt_of_fits _ h, fun h => narrowInt_of_fits _ h,
    fun h1 h2 h3 h4 => ?_⟩
  simp only [cropEntry, narrowInt_of_fits _ h3, narrowInt_of_fits _ h4]
  constructor <;> omega

/-- C13, amended, at the worked example: offsets `[1, 1]` in a `[4, 4]` input with a `[2, 2]`
output give `(-1, -1)` on both axes. -/
theorem forward_descriptor_and_sign_witness :
    ((2 : Nat) ≤ ([1, 1] : List Int).length ∧ 2 ≤ [4, 4].length ∧ 2 ≤ [2, 2].length) ∧
    (∃ p, cropPaddings 2 [1, 1] [4, 4] [2, 2] = some p ∧ p.length = 2 ∧
      ∀ i, i < 2 → ∃ lo hi, p[i]? = some (lo, hi) ∧
        lo = narrowInt (-(([1, 1] : List Int).getD i 0)) ∧
        hi = narrowInt
          (-((([4, 4] : List Nat).getD i 0 : Int) - (([2, 2] : List Nat).getD i 0 : Int) -
            ([1, 1] : List Int).getD i 0)) ∧
        (fitsInt (-(([1, 1] : List Int).getD i 0)) = true →
          lo = -(([1, 1] : List Int).getD i 0)) ∧
        (fitsInt (-((([4, 4] : List Nat).getD i 0 : Int) -
            (([2, 2] : List Nat).getD i 0 : Int) - ([1, 1] : List Int).getD i 0)) = true →
          hi = -((([4, 4] : List Nat).getD i 0 : Int) - (([2, 2] : List Nat).getD i 0 : Int) -
            ([1, 1] : List Int).getD i 0)) ∧
        (0 ≤ ([1, 1] : List Int).getD i 0 →
          ([1, 1] : List Int).getD i 0 + (([2, 2] : List Nat).getD i 0 : Int) ≤
            (([4, 4] : List Nat).getD i 0 : Int) →
          fitsInt (-(([1, 1] : List Int).getD i 0)) = true →
          fitsInt (-((([4, 4] : List Nat).getD i 0 : Int) -
            (([2, 2] : List Nat).getD i 0 : Int) - ([1, 1] : List Int).getD i 0)) = true →
          lo ≤ 0 ∧ hi ≤ 0)) ∧
    cropPaddings 2 [1, 1] [4, 4] [2, 2] = some [(-1, -1), (-1, -1)] :=
  ⟨⟨by decide, by decide, by decide⟩,
    forward_descriptor_and_sign 2 [1, 1] [4, 4] [2, 2] (by decide) (by decide) (by decide),
    by decide⟩

/-- C14, as stated, fails: with `offsets = [-2147483648]`, `d_x_dims = [4]`,
`d_out_dims = [2]` the backward function stores `(-2147483648, -2147483646)`, whose high
amount is not `d_x_dims[0] - d_out_dims[0] - offsets[0] = 2147483650`, and the forward
function stores `(-2147483648, 2147483646)`, whose low amount is the backward low amount
itself and not its negation; and with `offsets = [0]`, `d_x_dims = [2147483649]`,
`d_out_dims = [1]`, a window that fits, the backward function stores `(0, -2147483648)`,
whose high amount is negative. -/
theorem backward_descriptor_narrowed :
    cropGradPaddings 1 [-2147483648] [4] [2] = some [(-2147483648, -2147483646)] ∧
    cropPaddings 1 [-2147483648] [4] [2] = some [(-2147483648, 2147483646)] ∧
    (((4 : Nat) : Int) - ((2 : Nat) : Int) - (-2147483648) = 2147483650) ∧
    (¬ ∃ p lo hi, cropGradPaddings 1 [-2147483648] [4] [2] = some p ∧
      p[0]? = some (lo, hi) ∧
      hi = (([4] : List Nat).getD 0 0 : Int) - (([2] : List Nat).getD 0 0 : Int) -
        ([-2147483648] : List Int).getD 0 0) ∧
    (¬ ∃ pb pf lo hi, cropGradPaddings 1 [-2147483648] [4] [2] = some pb ∧
      cropPaddings 1 [-2147483648] [4] [2] = some pf ∧
      pb[0]? = some (lo, hi) ∧ pf[0]? = some (-lo, -hi)) ∧
    ((0 : Int) ≤ 0 ∧ (0 : Int) + ((1 : Nat) : Int) ≤ ((2147483649 : Nat) : Int)) ∧
    cropGradPaddings 1 [0] [2147483649] [1] = some [(0, -2147483648)] ∧
    ¬ ∃ p lo hi, cropGradPaddings 1 [0] [2147483649] [1] = some p ∧ p[0]? = some (lo, hi) ∧
      0 ≤ lo ∧ 0 ≤ hi := by
  have eb : cropGradPaddings 1 [-2147483648] [4] [2] = some [(-2147483648, -2147483646)] := by
    decide
  have ef : cropPaddings 1 [-2147483648] [4] [2] = some [(-2147483648, 2147483646)] := by
    decide
  have eg : cropGradPaddings 1 [0] [2147483649] [1] = some [(0, -2147483648)] := by
    decide
  refine ⟨eb, ef, by decide, ?_, ?_, ⟨by decide, by decide⟩, eg, ?_⟩
  rotate_left 2
  · rintro ⟨p, lo, hi, hp, h0, _, hhi⟩
    rw [eg] at hp
    injection hp with hp
    subst hp
    simp only [List.getElem?_cons_zero, Option.some.injEq, Prod.mk.injEq] at h0
    omega
  · rintro ⟨p, lo, hi, hp, h0, hhi⟩
    rw [eb] at hp
    injection hp with hp
    subst hp
    simp only [List.getElem?_cons_zero, Option.some.injEq, Prod.mk.injEq] at h0
    simp only [List.getD_cons_zero] at hhi
    omega
  · rintro ⟨pb, pf, lo, hi, hpb, hpf, hb0, hf0⟩
    rw [eb] at hpb
    rw [ef] at hpf
    injection hpb with hpb
    injection hpf with hpf
    subst hpb
    subst hpf
    simp only [List.getElem?_cons_zero, Option.some.injEq, Prod.mk.injEq] at hb0 hf0
    omega

/-- C14, amended. Backward descriptor and its sign: for a gradient of rank `D` and containers
long enough for the loops to run, the backward function builds on every axis `i` the pair
`(low, high)` of the amounts `offsets[i]` and `d_x_dims[i] - d_out_dims[i] - offsets[i]`
narrowed to the 32-bit type `int`, which are these amounts themselves whenever they are values
of `int`; whenever the two amounts and their negations are values of `int`, the forward
function on `x_dims = d_x_dims`, `out_dims = d_out_dims` builds `(-low, -high)` on that axis;
and whenever `offsets[i] >= 0`, `offsets[i] + d_out_dims[i] <= d_x_dims[i]` and both amounts
are values of `int`, `low` and `high` are `>= 0`. -/
theorem backward_descriptor_and_sign (D : Nat) (offsets : List Int)
    (d_x_dims d_out_dims : List Nat)
    (hD : d_out_dims.length = D) (ho : D ≤ offsets.length) (hx : D ≤ d_x_dims.length) :
    ∃ pb pf, cropGradPaddings D offsets d_x_dims d_out_dims = some pb ∧
      cropPaddings D offsets d_x_dims d_out_dims = some pf ∧
      pb.length = D ∧ pf.length = D ∧
      ∀ i, i < D → ∃ lo hi, pb[i]? = some (lo, hi) ∧
        lo = narrowInt (offsets.getD i 0) ∧
        hi = narrowInt
          ((d_x_dims.getD i 0 : Int) - (d_out_dims.getD i 0 : Int) - offsets.getD i 0) ∧
        (fitsInt (offsets.getD i 0) = true → lo = offsets.getD i 0) ∧
        (fitsInt ((d_x_dims.getD i 0 : Int) - (d_out_dims.getD i 0 : Int) - offsets.getD i 0)
            = true →
          hi = (d_x_dims.getD i 0 : Int) - (d_out_dims.getD i 0 : Int) - offsets.getD i 0) ∧
        (fitsInt (offsets.getD i 0) = true → fitsInt (-(offsets.getD i 0)) = true →
          fitsInt ((d_x_dims.getD i 0 : Int) - (d_out_dims.getD i 0 : Int) - offsets.getD i 0)
            = true →
          fitsInt (-((d_x_dims.getD i 0 : Int) - (d_out_dims.getD i 0 : Int) -
            offsets.getD i 0)) = true →
          pf[i]? = some (-lo, -hi)) ∧
        (0 ≤ offsets.getD i 0 →
          offsets.getD i 0 + (d_out_dims.getD i 0 : Int) ≤ (d_x_dims.getD i 0 : Int) →
          fitsInt (offsets.getD i 0) = true →
          fitsInt ((d_x_dims.getD i 0 : Int) - (d_out_dims.getD i 0 : Int) - offsets.getD i 0)
            = true →
          0 ≤ lo ∧ 0 ≤ hi) := by
  obtain ⟨pb, hpb, hlenb, hgetb, _⟩ :=
    cropGradPaddings_getElem D offsets d_x_dims d_out_dims (by omega) (by omega) (by omega)
  obtain ⟨pf, hpf, hlenf, hgetf⟩ :=
    cropPaddings_getElem D offsets d_x_dims d_out_dims ho hx (by omega)
  refine ⟨pb, pf, hpb, hpf, hlenb, hlenf, fun i hi => ?_⟩
  refine ⟨(cropGradEntry offsets d_x_dims d_out_dims i).1,
    (cropGradEntry offsets d_x_dims d_out_dims i).2, hgetb i (by omega), rfl, rfl,
    fun h => narrowInt_of_fits _ h, fun h => narrowInt_of_fits _ h,
    fun h1 h2 h3 h4 => ?_, fun h1 h2 h3 h4 => ?_⟩
  · rw [hgetf i hi]
    simp only [cropEntry, cropGradEntry, narrowInt_of_fits _ h1, narrowInt_of_fits _ h2,
      narrowInt_of_fits _ h3, narrowInt_of_fits _ h4]
  · simp only [cropGradEntry, narrowInt_of_fits _ h3, narrowInt_of_fits _ h4]
    constructor <;> omega

/-- C14, amended, at the worked example: offsets `[1, 1]`, `d_x` of shape `[4, 4]`, `d_out`
of shape `[2, 2]` give `(1, 1)` on both axes, the negation of the forward `(-1, -1)`. -/
theorem backward_descriptor_and_sign_witness :
    (([2, 2] : List Nat).length = 2 ∧ 2 ≤ ([1, 1] : List Int).length ∧ 2 ≤ [4, 4].length) ∧
    (∃ pb pf, cropGradPaddings 2 [1, 1] [4, 4] [2, 2] = some pb ∧
      cropPaddings 2 [1, 1] [4, 4] [2, 2] = some pf ∧
      pb.length = 2 ∧ pf.length = 2 ∧
      ∀ i, i < 2 → ∃ lo hi, pb[i]? = some (lo, hi) ∧
        lo = narrowInt (([1, 1] : List Int).getD i 0) ∧
        hi = narrowInt
          ((([4, 4] : List Nat).getD i 0 : Int) - (([2, 2] : List Nat).getD i 0 : Int) -
            ([1, 1] : List Int).getD i 0) ∧
        (fitsInt (([1, 1] : List Int).getD i 0) = true → lo = ([1, 1] : List Int).getD i 0) ∧
        (fitsInt ((([4, 4] : List Nat).getD i 0 : Int) - (([2, 2] : List Nat).getD i 0 : Int) -
            ([1, 1] : List Int).getD i 0) = true →
          hi = (([4, 4] : List Nat).getD i 0 : Int) - (([2, 2] : List Nat).getD i 0 : Int) -
            ([1, 1] : List Int).getD i 0) ∧
        (fitsInt (([1, 1] : List Int).getD i 0) = true →
          fitsInt (-(([1, 1] : List Int).getD i 0)) = true →
          fitsInt ((([4, 4] : List Nat).getD i 0 : Int) - (([2, 2] : List Nat).getD i 0 : Int) -
            ([1, 1] : List Int).getD i 0) = true →
          fitsInt (-((([4, 4] : List Nat).getD i 0 : Int) -
            (([2, 2] : List Nat).getD i 0 : Int) - ([1, 1] : List Int).getD i 0)) = true →
          pf[i]? = some (-lo, -hi)) ∧
        (0 ≤ ([1, 1] : List Int).getD i 0 →
          ([1, 1] : List Int).getD i 0 + (([2, 2] : List Nat).getD i 0 : Int) ≤
            (([4, 4] : List Nat).getD i 0 : Int) →
          fitsInt (([1, 1] : List Int).getD i 0) = true →
          fitsInt ((([4, 4] : List Nat).getD i 0 : Int) - (([2, 2] : List Nat).getD i 0 : Int) -
            ([1, 1] : List Int).getD i 0) = true →
          0 ≤ lo ∧ 0 ≤ hi)) ∧
    cropGradPaddings 2 [1, 1] [4, 4] [2, 2] = some [(1, 1), (1, 1)] ∧
    cropPaddings 2 [1, 1] [4, 4] [2, 2] = some [(-1, -1), (-1, -1)] :=
  ⟨⟨by decide, by decide, by decide⟩,
    backward_descriptor_and_sign 2 [1, 1] [4, 4] [2, 2] (by decide) (by decide) (by decide),
    by decide, by decide⟩

/-! ## Which specialisation runs -/

theorem From_ok_inv {α : Type} (D : Nat) (t : Tensor α) (v : EigenTensor α)
    (h : EigenTensor.From D t = .ok v) :
    t.dims.length = D ∧ numel t.dims ≤ t.data.length ∧ v = { dimensions := t.dims, data := t.data } := by
  unfold EigenTensor.From at h
  split at h
  · cases h
  · rename_i hD
    split at h
    · cases h
    · rename_i hmem
      injection h with h
      exact ⟨by simpa using hD, by omega, h.symm⟩

theorem CropFunction_returned {α : Type} [Zero α] (D : Nat) (c c1 : ExecutionContext α)
    (h : CropFunction D c = .returned c1) : c.X.dims.length = D ∧ c1.log = c.log := by
  unfold CropFunction at h
  simp only [] at h
  split at h
  · cases h
  · split at h
    · cases h
    · split at h
      · cases h
      · rename_i x_tensor hx
        split at h
        · cases h
        · split at h
          · cases h
          · injection h with h
            subst h
            exact ⟨(From_ok_inv D c.X x_tensor hx).1, rfl⟩

theorem CropGradFunction_returned {α : Type} [Zero α] (D : Nat) (c c1 : ExecutionContext α)
    (h : CropGradFunction D c = .returned c1) : c.OutGrad.dims.length = D ∧ c1.log = c.log := by
  unfold CropGradFunction at h
  simp only [] at h
  split at h
  · cases h
  · split at h
    · cases h
    · split at h
      · cases h
      · rename_i d_out_tensor hx
        split at h
        · cases h
        · injection h with h
          subst h
          exact ⟨(From_ok_inv D c.OutGrad d_out_tensor hx).1, rfl⟩

theorem log_append_ne (log : List String) (msg : String) : log ++ [msg] ≠ log := by
  intro h
  have := congrArg List.length h
  simp at this

/-- C15. Rank dispatch selects the matching specialisation: for `X` of rank `r` in 1..6
`CropKernel::Compute` is `CropFunction` with `D = r` on the same context, and for `d_out` of
rank `r` in 1..6 `CropGradKernel::Compute` is `CropGradFunction` with `D = r` on the same
context.  Neither call takes the error branch (the outcome is not the logged return), and a
specialisation of the two functions can only return on an operand of its own rank. -/
theorem rank_dispatch_selects_specialization {α : Type} [Zero α] (c : ExecutionContext α)
    (rX rG : Nat) (hX : c.X.dims.length = rX) (hX1 : 1 ≤ rX) (hX6 : rX ≤ 6)
    (hG : c.OutGrad.dims.length = rG) (hG1 : 1 ≤ rG) (hG6 : rG ≤ 6) :
    CropKernel.Compute c = CropFunction rX c ∧
    CropGradKernel.Compute c = CropGradFunction rG c ∧
    CropKernel.Compute c ≠ .returned { c with log := c.log ++ [rankMsg] } ∧
    CropGradKernel.Compute c ≠ .returned { c with log := c.log ++ [rankMsg] } ∧
    (∀ D c1, CropFunction D c = .returned c1 → D = rX) ∧
    (∀ D c1, CropGradFunction D c = .returned c1 → D = rG) := by
  have e1 : CropKernel.Compute c = CropFunction rX c := by
    rw [CropKernel_dispatch c (by omega) (by omega), hX]
  have e2 : CropGradKernel.Compute c = CropGradFunction rG c := by
    rw [CropGradKernel_dispatch c (by omega) (by omega), hG]
  refine ⟨e1, e2, ?_, ?_, ?_, ?_⟩
  · intro h
    rw [e1] at h
    exact log_append_ne _ _ (CropFunction_returned rX c _ h).2
  · intro h
    rw [e2] at h
    exact log_append_ne _ _ (CropGradFunction_returned rG c _ h).2
  · intro D c1 h
    rw [← hX]; exact (CropFunction_returned D c c1 h).1.symm
  · intro D c1 h
    rw [← hG]; exact (CropGradFunction_returned D c c1 h).1.symm

/-- C15 at the boundary ranks: a rank-1 and a rank-6 call run `D = 1` and `D = 6`, and on the
rank-2 example the specialisations `D = 1` and `D = 3` end differently from the kernel. -/
theorem rank_dispatch_selects_specialization_witness :
    (rank1Ctx.X.dims.length = 1 ∧ (1 : Nat) ≤ 1 ∧ (1 : Nat) ≤ 6 ∧
      rank1Ctx.OutGrad.dims.length = 1 ∧ (1 : Nat) ≤ 1 ∧ (1 : Nat) ≤ 6) ∧
    (CropKernel.Compute rank1Ctx = CropFunction 1 rank1Ctx ∧
      CropGradKernel.Compute rank1Ctx = CropGradFunction 1 rank1Ctx ∧
      CropKernel.Compute rank1Ctx ≠ .returned { rank1Ctx with log := rank1Ctx.log ++ [rankMsg] } ∧
      CropGradKernel.Compute rank1Ctx ≠
        .returned { rank1Ctx with log := rank1Ctx.log ++ [rankMsg] } ∧
      (∀ D c1, CropFunction D rank1Ctx = .returned c1 → D = 1) ∧
      (∀ D c1, CropGradFunction D rank1Ctx = .returned c1 → D = 1)) ∧
    (CropKernel.Compute rank1Ctx).out? = some ⟨[2], [1, 2]⟩ ∧
    (CropGradKernel.Compute rank1Ctx).xGrad? = some ⟨[4], [0, 5, 6, 0]⟩ ∧
    (CropKernel.Compute rank6Ctx).out? = some ⟨[1, 1, 1, 1, 1, 2], [1, 2]⟩ ∧
    (CropGradKernel.Compute rank6Ctx).xGrad? = some ⟨[1, 1, 1, 1, 1, 4], [0, 5, 6, 0]⟩ ∧
    (CropFunction 1 exampleCtx).out? = none ∧ (CropFunction 3 exampleCtx).out? = none ∧
    (CropFunction 2 exampleCtx).out? = (CropKernel.Compute exampleCtx).out? :=
  ⟨⟨by decide, by decide, by decide, by decide, by decide, by decide⟩,
    rank_dispatch_selects_specialization rank1Ctx 1 1 (by decide) (by decide) (by decide)
      (by decide) (by decide) (by decide),
    by rfl, by rfl, by rfl, by rfl, by rfl, by rfl, by rfl⟩

/-! ## Offsets longer than the rank -/

theorem forLoop_congr {σ : Type} (body1 body2 : Nat → σ → Option σ) (s0 : σ) :
    ∀ n, (∀ i, i < n → ∀ s, body1 i s = body2 i s) → forLoop body1 n s0 = forLoop body2 n s0
  | 0, _ => rfl
  | n + 1, h => by
      simp only [forLoop, forLoop_congr body1 body2 s0 n (fun i hi s => h i (by omega) s)]
      cases forLoop body2 n s0 with
      | none => rfl
      | some s => exact h n (by omega) s

theorem cropGradPaddings_take (D k : Nat) (offsets : List Int) (d_x_dims d_out_dims : List Nat)
    (hk : d_out_dims.length ≤ k) :
    cropGradPaddings D (offsets.take k) d_x_dims d_out_dims =
      cropGradPaddings D offsets d_x_dims d_out_dims := by
  unfold cropGradPaddings
  apply forLoop_congr
  intro i hi p
  unfold cropGradBody
  rw [List.getElem?_take, if_pos (by omega)]

theorem CropGradFunction_take {α : Type} [Zero α] (D k : Nat) (c : ExecutionContext α)
    (hk : c.OutGrad.dims.length ≤ k) :
    CropGradFunction D c =
      (CropGradFunction D { c with offsets := c.offsets.take k }).mapContext
        (fun c1 => { c1 with offsets := c.offsets }) := by
  unfold CropGradFunction
  simp only [cropGradPaddings_take D k c.offsets _ _ hk]
  cases cropGradPaddings D c.offsets (c.XGrad.mutable_data c.fresh).dims c.OutGrad.dims with
  | none => rfl
  | some paddings =>
    simp only []
    cases EigenTensor.From D (c.XGrad.mutable_data c.fresh) with
    | error msg => rfl
    | ok d_x_tensor =>
      simp only []
      cases EigenTensor.From D c.OutGrad with
      | error msg => rfl
      | ok d_out_tensor =>
        simp only []
        cases d_x_tensor.assign (d_out_tensor.pad paddings 0) with
        | none => rfl
        | some written => rfl

theorem xGrad_mapContext_offsets {α : Type} (o : Outcome α) (offsets : List Int) :
    (o.mapContext (fun c1 => { c1 with offsets := offsets })).xGrad? = o.xGrad? := by
  cases o <;> rfl

theorem CropGradFunction_never_offsets_error {α : Type} [Zero α] (D : Nat)
    (c c1 : ExecutionContext α) : CropGradFunction D c ≠ .threw offsetsSizeMsg c1 := by
  have hr : rankMismatchMsg ≠ offsetsSizeMsg := by decide
  have hn : noMemoryMsg ≠ offsetsSizeMsg := by decide
  unfold CropGradFunction
  simp only []
  split
  · exact fun h => Outcome.noConfusion h
  · split
    · rename_i msg hmsg
      intro heq
      injection heq with h1 _
      rcases From_error _ _ _ hmsg with h2 | h2
      · exact hr (h2 ▸ h1)
      · exact hn (h2 ▸ h1)
    · split
      · rename_i msg hmsg
        intro heq
        injection heq with h1 _
        rcases From_error _ _ _ hmsg with h2 | h2
        · exact hr (h2 ▸ h1)
        · exact hn (h2 ▸ h1)
      · split
        · exact fun h => Outcome.noConfusion h
        · exact fun h => Outcome.noConfusion h

theorem CropFunction_threw_of_length_ne {α : Type} [Zero α] (D : Nat) (c : ExecutionContext α)
    (h : c.offsets.length ≠ c.X.dims.length) :
    CropFunction D c = .threw offsetsSizeMsg { c with Out := c.Out.mutable_data c.fresh } := by
  unfold CropFunction
  simp only []
  rw [if_pos (fun e => h e.symm)]

/-- C16. Asymmetric validation of the offsets length: for operands of rank `D` in 1..6 and
offsets strictly longer than `D`, the backward kernel ends exactly as it does with the
offsets truncated to their first `D` entries (same outcome, same `d_x`; only the attribute
kept in the context differs), it never throws the offsets-size enforce failure, and it
returns a `d_x` whenever `d_out` holds its data, `d_x` has rank `D` and the amounts of the
descriptor of the first `D` offsets are values of `int`; the forward kernel on an `X` of rank
`D` with the same offsets throws the offsets-size enforce failure. -/
theorem asymmetric_offsets_validation {α : Type} [Zero α] (c : ExecutionContext α) (D : Nat)
    (hD1 : 1 ≤ D) (hD6 : D ≤ 6) (hG : c.OutGrad.dims.length = D) (hX : c.X.dims.length = D)
    (hlong : D < c.offsets.length) :
    CropGradKernel.Compute c =
      (CropGradKernel.Compute { c with offsets := c.offsets.take D }).mapContext
        (fun c1 => { c1 with offsets := c.offsets }) ∧
    (CropGradKernel.Compute c).xGrad? =
      (CropGradKernel.Compute { c with offsets := c.offsets.take D }).xGrad? ∧
    (∀ c1, CropGradKernel.Compute c ≠ .threw offsetsSizeMsg c1) ∧
    (c.OutGrad.Allocated → c.XGrad.dims.length = D →
      descriptorFits (cropGradDesc (c.offsets.take D) c.XGrad.dims c.OutGrad.dims) = true →
      ∃ dx, CropGradKernel.Compute c = .returned { c with XGrad := dx }) ∧
    CropKernel.Compute c =
      .threw offsetsSizeMsg { c with Out := c.Out.mutable_data c.fresh } := by
  have e1 : CropGradKernel.Compute c = CropGradFunction D c := by
    rw [CropGradKernel_dispatch c (by omega) (by omega), hG]
  have e2 : CropGradKernel.Compute { c with offsets := c.offsets.take D } =
      CropGradFunction D { c with offsets := c.offsets.take D } := by
    rw [CropGradKernel_dispatch _ (by show 1 ≤ c.OutGrad.dims.length; omega)
      (by show c.OutGrad.dims.length ≤ 6; omega)]
    show CropGradFunction c.OutGrad.dims.length _ = _
    rw [hG]
  have e3 := CropGradFunction_take D D c (by omega)
  refine ⟨by rw [e1, e2]; exact e3, ?_, ?_, ?_, ?_⟩
  · rw [e1, e2, e3, xGrad_mapContext_offsets]
  · intro c1
    rw [e1]
    exact CropGradFunction_never_offsets_error D c c1
  · intro hA hx hint
    obtain ⟨w, hret, _⟩ := CropGradFunction_spec D { c with offsets := c.offsets.take D } hG hA
      (by show (c.offsets.take D).length = D; rw [List.length_take]; omega) hx hint
    exact ⟨⟨c.XGrad.dims, w⟩, by rw [e1, e3, hret]; rfl⟩
  · rw [CropKernel_dispatch c (by omega) (by omega)]
    exact CropFunction_threw_of_length_ne _ c (by omega)

/-- C16 at the worked example with a third offset appended: the backward kernel writes the
same `d_x` as with offsets `[1, 1]`, the forward kernel throws. -/
theorem asymmetric_offsets_validation_witness :
    ((1 : Nat) ≤ 2 ∧ (2 : Nat) ≤ 6 ∧ longOffsetsCtx.OutGrad.dims.length = 2 ∧
      longOffsetsCtx.X.dims.length = 2 ∧ 2 < longOffsetsCtx.offsets.length) ∧
    (CropGradKernel.Compute longOffsetsCtx =
      (CropGradKernel.Compute
        { longOffsetsCtx with offsets := longOffsetsCtx.offsets.take 2 }).mapContext
        (fun c1 => { c1 with offsets := longOffsetsCtx.offsets }) ∧
    (CropGradKernel.Compute longOffsetsCtx).xGrad? =
      (CropGradKernel.Compute
        { longOffsetsCtx with offsets := longOffsetsCtx.offsets.take 2 }).xGrad? ∧
    (∀ c1, CropGradKernel.Compute longOffsetsCtx ≠ .threw offsetsSizeMsg c1) ∧
    (longOffsetsCtx.OutGrad.Allocated → longOffsetsCtx.XGrad.dims.length = 2 →
      descriptorFits (cropGradDesc (longOffsetsCtx.offsets.take 2) longOffsetsCtx.XGrad.dims
        longOffsetsCtx.OutGrad.dims) = true →
      ∃ dx, CropGradKernel.Compute longOffsetsCtx = .returned { longOffsetsCtx with XGrad := dx }) ∧
    CropKernel.Compute longOffsetsCtx =
      .threw offsetsSizeMsg
        { longOffsetsCtx with Out := longOffsetsCtx.Out.mutable_data longOffsetsCtx.fresh }) ∧
    (CropGradKernel.Compute longOffsetsCtx).xGrad? =
      some ⟨[4, 4], [0, 0, 0, 0, 0, 1, 1, 0, 0, 1, 1, 0, 0, 0, 0, 0]⟩ ∧
    (CropKernel.Compute longOffsetsCtx).out? = none :=
  ⟨⟨by decide, by decide, by decide, by decide, by decide⟩,
    asymmetric_offsets_validation longOffsetsCtx 2 (by decide) (by decide) (by decide)
      (by decide) (by decide),
    by rfl, by rfl⟩

/-! ## The stores of the backward loop -/

theorem cropGradBodyTraced_fst (offsets : List Int) (d_x_dims d_out_dims : List Nat) (i : Nat)
    (p : List (Int × Int)) (t : List Nat) :
    (cropGradBodyTraced offsets d_x_dims d_out_dims i (p, t)).toOption.map Prod.fst =
      cropGradBody offsets d_x_dims d_out_dims i p := by
  unfold cropGradBodyTraced cropGradBody storeSlot
  split
  · simp only []
    split <;> rfl
  · rfl

/-- Dropping the record of the stores from the instrumented loop gives the loop itself. -/
theorem forLoopE_traced_fst (offsets : List Int) (d_x_dims d_out_dims : List Nat)
    (p0 : List (Int × Int)) :
    ∀ n, (forLoopE (cropGradBodyTraced offsets d_x_dims d_out_dims) n (p0, [])).toOption.map
        Prod.fst = forLoop (cropGradBody offsets d_x_dims d_out_dims) n p0
  | 0 => rfl
  | n + 1 => by
      have ih := forLoopE_traced_fst offsets d_x_dims d_out_dims p0 n
      simp only [forLoopE, forLoop]
      cases h : forLoopE (cropGradBodyTraced offsets d_x_dims d_out_dims) n (p0, []) with
      | error e =>
          rw [h] at ih
          rw [← ih]; rfl
      | ok st =>
          rw [h] at ih
          rw [← ih]
          obtain ⟨p, t⟩ := st
          exact cropGradBodyTraced_fst offsets d_x_dims d_out_dims n p t

/-- While the loop index stays below the size of the array, the instrumented loop either has
stored to the slots `0, ..., n-1` in this order, once each, or has stopped at a read. -/
theorem forLoopE_traced_cases (D : Nat) (offsets : List Int) (d_x_dims d_out_dims : List Nat) :
    ∀ n, n ≤ D →
      (∃ p, forLoopE (cropGradBodyTraced offsets d_x_dims d_out_dims) n (newPaddings D, []) =
          .ok (p, List.range n) ∧ p.length = D) ∨
      (∃ j, j < n ∧
        forLoopE (cropGradBodyTraced offsets d_x_dims d_out_dims) n (newPaddings D, []) =
          .error (.read j))
  | 0, _ => Or.inl ⟨newPaddings D, rfl, by simp [newPaddings]⟩
  | n + 1, hn => by
      rcases forLoopE_traced_cases D offsets d_x_dims d_out_dims n (by omega) with
        ⟨p, hp, hlen⟩ | ⟨j, hj, he⟩
      · simp only [forLoopE, hp]
        unfold cropGradBodyTraced
        split
        · simp only []
          rw [if_pos (by omega)]
          exact Or.inl ⟨_, by rw [List.range_succ], by simp [hlen]⟩
        · exact Or.inr ⟨n, by omega, rfl⟩
      · exact Or.inr ⟨j, by omega, by simp only [forLoopE, he]⟩

/-- C17. Backward descriptor is fully initialised under dispatch: for `d_out` of rank `D` in
1..6 the kernel runs `CropGradFunction` with size `D`, whose loop bound `d_out_dims.size()` is
`D`.  The loop instrumented with the record of its stores computes the same descriptor, never
stores outside the `D` slots, and, when its reads of `offsets` and `d_x_dims` are in bounds,
stores to the slots `0, ..., D-1`, once each and to no other index, leaving in slot `i` the
pair of axis `i`. -/
theorem backward_descriptor_fully_initialised {α : Type} [Zero α] (c : ExecutionContext α)
    (D : Nat) (hD1 : 1 ≤ D) (hD6 : D ≤ 6) (hG : c.OutGrad.dims.length = D) :
    CropGradKernel.Compute c = CropGradFunction D c ∧
    (cropGradPaddingsTraced D c.offsets (c.XGrad.mutable_data c.fresh).dims
        c.OutGrad.dims).toOption.map Prod.fst =
      cropGradPaddings D c.offsets (c.XGrad.mutable_data c.fresh).dims c.OutGrad.dims ∧
    (∀ i, cropGradPaddingsTraced D c.offsets (c.XGrad.mutable_data c.fresh).dims
        c.OutGrad.dims ≠ .error (.store i)) ∧
    (D ≤ c.offsets.length → D ≤ c.XGrad.dims.length →
      ∃ p, cropGradPaddingsTraced D c.offsets (c.XGrad.mutable_data c.fresh).dims
          c.OutGrad.dims = .ok (p, List.range D) ∧
        p.length = D ∧
        (∀ i, i < D →
          p[i]? = some (cropGradEntry c.offsets c.XGrad.dims c.OutGrad.dims i) ∧
          (List.range D).count i = 1) ∧
        (∀ i, D ≤ i → (List.range D).count i = 0)) := by
  have hfst := forLoopE_traced_fst c.offsets (c.XGrad.mutable_data c.fresh).dims c.OutGrad.dims
    (newPaddings D) c.OutGrad.dims.length
  have hcases := forLoopE_traced_cases D c.offsets (c.XGrad.mutable_data c.fresh).dims
    c.OutGrad.dims c.OutGrad.dims.length (by omega)
  refine ⟨by rw [CropGradKernel_dispatch c (by omega) (by omega), hG], hfst, ?_, ?_⟩
  · intro i h
    unfold cropGradPaddingsTraced at h
    rcases hcases with ⟨p, hp, _⟩ | ⟨j, _, he⟩
    · rw [hp] at h; cases h
    · rw [he] at h; cases h
  · intro ho hx
    obtain ⟨q, hq, _, hget, _⟩ := cropGradPaddings_getElem D c.offsets
      (c.XGrad.mutable_data c.fresh).dims c.OutGrad.dims (by omega) (by omega)
      (by rw [mutable_data_dims]; omega)
    unfold cropGradPaddings at hq
    rw [hq] at hfst
    unfold cropGradPaddingsTraced
    rcases hcases with ⟨p, hp, hlen⟩ | ⟨j, _, he⟩
    · rw [hp] at hfst
      have hpq : p = q := by
        have : some p = some q := hfst
        injection this
      refine ⟨p, by rw [hp, hG], hlen, ?_, ?_⟩
      · intro i hi
        refine ⟨?_, List.count_eq_one_of_mem (List.nodup_range D) (List.mem_range.2 hi)⟩
        rw [hpq, hget i (by omega), mutable_data_dims]
      · intro i hi
        exact List.count_eq_zero_of_not_mem (by simp; omega)
    · rw [he] at hfst
      cases hfst

/-- C17 at the worked example: the loop stores to slots 0 and 1; the same loop over an array
of a single slot would store outside of it at index 1. -/
theorem backward_descriptor_fully_initialised_witness :
    ((1 : Nat) ≤ 2 ∧ (2 : Nat) ≤ 6 ∧ exampleCtx.OutGrad.dims.length = 2) ∧
    (CropGradKernel.Compute exampleCtx = CropGradFunction 2 exampleCtx ∧
    (cropGradPaddingsTraced 2 exampleCtx.offsets
        (exampleCtx.XGrad.mutable_data exampleCtx.fresh).dims
        exampleCtx.OutGrad.dims).toOption.map Prod.fst =
      cropGradPaddings 2 exampleCtx.offsets
        (exampleCtx.XGrad.mutable_data exampleCtx.fresh).dims exampleCtx.OutGrad.dims ∧
    (∀ i, cropGradPaddingsTraced 2 exampleCtx.offsets
        (exampleCtx.XGrad.mutable_data exampleCtx.fresh).dims
        exampleCtx.OutGrad.dims ≠ .error (.store i)) ∧
    (2 ≤ exampleCtx.offsets.length → 2 ≤ exampleCtx.XGrad.dims.length →
      ∃ p, cropGradPaddingsTraced 2 exampleCtx.offsets
          (exampleCtx.XGrad.mutable_data exampleCtx.fresh).dims
          exampleCtx.OutGrad.dims = .ok (p, List.range 2) ∧
        p.length = 2 ∧
        (∀ i, i < 2 →
          p[i]? = some (cropGradEntry exampleCtx.offsets exampleCtx.XGrad.dims
            exampleCtx.OutGrad.dims i) ∧
          (List.range 2).count i = 1) ∧
        (∀ i, 2 ≤ i → (List.range 2).count i = 0))) ∧
    cropGradPaddingsTraced 2 [1, 1] [4, 4] [2, 2] = .ok ([(1, 1), (1, 1)], [0, 1]) ∧
    cropGradPaddingsTraced 1 [1, 1] [4, 4] [2, 2] = .error (.store 1) :=
  ⟨⟨by decide, by decide, by decide⟩,
    backward_descriptor_fully_initialised exampleCtx 2 (by decide) (by decide) (by decide),
    by rfl, by rfl⟩

/-! ## Index safety -/

end paddle.operators
